import Mathlib

/-!
Verification of the linear-issue-maker parsing and client-resolution layer.

The Lean definitions below are a shallow embedding of the Python sources:

  * `src/linear_issue_maker/parser.py`       (IssueSpec, parse_issue_spec, parse_csv_specs)
  * `src/linear_issue_maker/base_client.py`  (LinearIdentifiers._extract_id)
  * `src/linear_issue_maker/mcp_client.py`   (_match_record, _record_id, caching client)
  * `src/linear_issue_maker/graphql_client.py` (_match_record, _resolve_template,
    create_issue template attachment, caching client)
  * `src/linear_issue_maker/cli.py`          (batch_csv orchestration)

Modelling conventions:

  * Python strings are Lean `String`; `str.strip` / `str.lower` are modelled for the
    ASCII fragment (`pyStrip`, `pyLower`).  The repository inputs are ASCII except for
    the byte-order mark U+FEFF, which Python treats as neither whitespace nor
    lowercase-able, exactly as the model does.
  * Python dict records (teams, projects, templates) become the `Record` structure of
    optional string fields; an absent key and a `None` value both become `none`
    (both are falsy and fail `isinstance(value, str)` in the source).
  * Exceptions become `Except` with the structured error type `PyErr`; the payload
    of each constructor carries the data interpolated into the Python message.
  * `csv.DictReader` is modelled for the quote-free dialect actually exercised by the
    repository: rows are newline-separated, cells are delimiter-separated, a blank
    line yields the empty row which `DictReader` skips without numbering it, a short
    row fills the remaining columns with `None` (restval), extra cells are dropped.
-/

namespace LinearIssueMaker

/-- Whitespace set of the Python `str.strip` and of the regex class `\s`
(ASCII fragment). -/
def pyIsSpace (c : Char) : Bool :=
  c = ' ' || c = '\t' || c = '\n' || c = '\r' || c = '\x0b' || c = '\x0c'

/-- Remove leading and trailing whitespace from a character list. -/
def trimChars (l : List Char) : List Char :=
  ((l.dropWhile pyIsSpace).reverse.dropWhile pyIsSpace).reverse

/-- Python `str.strip()`. -/
def pyStrip (s : String) : String :=
  ⟨trimChars s.data⟩

/-- Python `str.lower()` (ASCII fragment). -/
def pyLower (s : String) : String :=
  ⟨s.data.map Char.toLower⟩

/-- Python `value.strip().lower()`, the normalisation used by record matching. -/
def pyNorm (s : String) : String :=
  pyLower (pyStrip s)

/-- Truthiness of an optional Python string: `None` and the empty string are falsy. -/
def pyTruthy (v : Option String) : Bool :=
  match v with
  | none => false
  | some s => s ≠ ""

/-- Python `a or b` on optional strings: the first truthy operand, else `b`. -/
def pyOr (a b : Option String) : Option String :=
  if pyTruthy a then a else b

/-- Python `str.splitlines()` restricted to `\n` separators: split at every
newline and drop the final empty piece produced by a trailing newline. -/
def splitLinesAux : List Char → List Char → List (List Char)
  | [], acc => [acc.reverse]
  | c :: rest, acc =>
    if c = '\n' then acc.reverse :: splitLinesAux rest []
    else splitLinesAux rest (c :: acc)

/-- Python `str.splitlines()` (newline-only fragment). -/
def pySplitlines (s : String) : List String :=
  if s.data = [] then []
  else
    let parts := splitLinesAux s.data []
    (if s.data.getLast? = some '\n' then parts.dropLast else parts).map (⟨·⟩)

/-- Split one CSV line into cells at the delimiter (quote-free dialect). -/
def splitFieldsAux (delim : Char) : List Char → List Char → List (List Char)
  | [], acc => [acc.reverse]
  | c :: rest, acc =>
    if c = delim then acc.reverse :: splitFieldsAux delim rest []
    else splitFieldsAux delim rest (c :: acc)

/-- Rows produced by `csv.reader(StringIO(csv_text))` in the quote-free dialect:
one row per line, a blank line yielding the empty row. -/
def csvRows (text : String) (delim : Char) : List (List String) :=
  (pySplitlines text).map fun line =>
    if line = "" then [] else (splitFieldsAux delim line.data []).map (⟨·⟩)

/-- A backend record (team, project or template): a Python dict of optional
string fields.  `none` models both an absent key and a `None` value. -/
structure Record where
  id : Option String := none
  teamId : Option String := none
  projectId : Option String := none
  templateId : Option String := none
  identifier : Option String := none
  name : Option String := none
  title : Option String := none
  key : Option String := none
  slug : Option String := none
deriving DecidableEq, Repr

/-- Structured issue data parsed from the user text block (`parser.IssueSpec`).
All four fields are stored stripped; the source class has no template field. -/
structure IssueSpec where
  team : String
  project : String
  title : String
  summary : String
deriving DecidableEq, Repr

/-- Structured counterpart of the exceptions raised by the sources; each
constructor carries the data interpolated into the corresponding message. -/
inductive PyErr where
  | emptyInput
  | unknownHeader (header : String)
  | duplicateHeader (header : String)
  | unexpectedContent (line : String)
  | missingSummary
  | missingHeaders (headers : List String)
  | fieldEmpty (fields : List String)
  | csvEmpty
  | noHeaderRow
  | missingColumns (missing available : List String)
  | rowErrors (errs : List (Nat × List String))
  | noValidIssues
  | attrError
  | notFound (entity expected available : String)
  | recordMissingId (r : Record)
deriving DecidableEq, Repr

/-- The pydantic `_non_empty` validator applied to the four fields in
declaration order: returns the stripped values, or the list of empty fields. -/
def mkIssueSpec (team project title summary : String) : Except (List String) IssueSpec :=
  let bads :=
    (if pyStrip team = "" then ["team"] else []) ++
    (if pyStrip project = "" then ["project"] else []) ++
    (if pyStrip title = "" then ["title"] else []) ++
    (if pyStrip summary = "" then ["summary"] else [])
  if bads = [] then .ok ⟨pyStrip team, pyStrip project, pyStrip title, pyStrip summary⟩
  else .error bads

instance {ε α : Type} [DecidableEq ε] [DecidableEq α] : DecidableEq (Except ε α)
  | .ok a, .ok b =>
    if h : a = b then .isTrue (by rw [h]) else .isFalse (fun hh => h (Except.ok.inj hh))
  | .ok _, .error _ => .isFalse (fun hh => Except.noConfusion hh)
  | .error _, .ok _ => .isFalse (fun hh => Except.noConfusion hh)
  | .error a, .error b =>
    if h : a = b then .isTrue (by rw [h]) else .isFalse (fun hh => h (Except.error.inj hh))

/-- Strict lexicographic comparison of character lists by code point, the
order Python uses to compare strings. -/
def strLtChars : List Char → List Char → Bool
  | [], [] => false
  | [], _ :: _ => true
  | _ :: _, [] => false
  | a :: as, b :: bs =>
    if a.toNat < b.toNat then true
    else if b.toNat < a.toNat then false
    else strLtChars as bs

/-- Total order on strings derived from the strict lexicographic comparison. -/
def strLe (a b : String) : Bool :=
  !(strLtChars b.data a.data)

/-- Insert a string into a sorted list, keeping it sorted ascending. -/
def insertSorted (x : String) : List String → List String
  | [] => [x]
  | y :: ys => if strLe x y then x :: y :: ys else y :: insertSorted x ys

/-- Insertion sort of strings ascending, Python `sorted`. -/
def sortStr : List String → List String
  | [] => []
  | x :: xs => insertSorted x (sortStr xs)

/-- Label fields of a record in the matching order of `_match_record`:
`("name", "title", "key", "slug")`. -/
def labelFields (r : Record) : List (Option String) :=
  [r.name, r.title, r.key, r.slug]

/-- Inner loop of `_match_record`: does any label field of the record equal the
needle after `strip().lower()` normalisation of the field value? -/
def recMatchesNeedle (r : Record) (needle : String) : Bool :=
  (labelFields r).any fun v =>
    match v with
    | some s => pyNorm s == needle
    | none => false

/-- Outer loop of `_match_record`: first record whose label matches the needle. -/
def findFirstMatch (needle : String) : List Record → Option Record
  | [] => none
  | r :: rs => if recMatchesNeedle r needle then some r else findFirstMatch needle rs

/-- Python `record.get("name") or record.get("title") or record.get("key") or
record.get("slug")` wrapped in `str(...)` (`str(None)` is the string "None"). -/
def firstLabel (r : Record) : String :=
  (pyOr r.name (pyOr r.title (pyOr r.key r.slug))).getD "None"

/-- Guard of the set comprehension in `_match_record`:
`any(record.get(field) for field in ("name", "title", "key", "slug"))`. -/
def hasAnyLabel (r : Record) : Bool :=
  (labelFields r).any pyTruthy

/-- Sorted-ascending duplicate-free list of strings, Python `sorted(set)`. -/
def sortedSet (l : List String) : List String :=
  sortStr l.dedup

/-- The `available` enumeration built by `_match_record` on a failed lookup:
for each record with any truthy label field, the first truthy label, as a
sorted set. -/
def availableOptions (records : List Record) : List String :=
  sortedSet (records.filterMap fun r =>
    if hasAnyLabel r then some (firstLabel r) else none)

/-- The `_match_record` static method shared by both clients: first record any
of whose {name, title, key, slug} fields equals the expected name after
stripping and lowercasing both sides; otherwise a not-found error carrying the
available labels. -/
def match_record (records : List Record) (expected : String) (entityLabel : String) :
    Except PyErr Record :=
  match findFirstMatch (pyNorm expected) records with
  | some r => .ok r
  | none =>
    .error (.notFound entityLabel expected
      (String.intercalate ", " (availableOptions records)))

/-- First truthy value in a list of optional strings (the `for key in (...)`
loops of `_extract_id` and `_record_id`). -/
def firstTruthy : List (Option String) → Option String
  | [] => none
  | v :: vs => if pyTruthy v then v else firstTruthy vs

/-- The field order tried by `LinearIdentifiers._extract_id` in base_client.py:
`("id", "teamId", "projectId", "identifier")`. -/
def extract_id (r : Record) : Except PyErr String :=
  match firstTruthy [r.id, r.teamId, r.projectId, r.identifier] with
  | some s => .ok s
  | none => .error (.recordMissingId r)

/-- The field order tried by `_record_id` in mcp_client.py:
`("id", "teamId", "projectId", "templateId", "identifier")`. -/
def record_id (r : Record) : Except PyErr String :=
  match firstTruthy [r.id, r.teamId, r.projectId, r.templateId, r.identifier] with
  | some s => .ok s
  | none => .error (.recordMissingId r)

/-- First pass of `_resolve_template`: first template whose `get("name", "")`
matches the needle and whose `teamId` equals the target team; returns the
`template["id"]` lookup, whose failure (a `KeyError`) is an exception. -/
def tmplTeamPass (needle teamId : String) : List Record → Except Unit (Option String)
  | [] => .ok none
  | t :: ts =>
    if pyNorm (t.name.getD "") == needle then
      if t.teamId == some teamId then
        match t.id with
        | some i => .ok (some i)
        | none => .error ()
      else tmplTeamPass needle teamId ts
    else tmplTeamPass needle teamId ts

/-- Second pass of `_resolve_template`: first template whose name matches the
needle, regardless of team. -/
def tmplAnyPass (needle : String) : List Record → Except Unit (Option String)
  | [] => .ok none
  | t :: ts =>
    if pyNorm (t.name.getD "") == needle then
      match t.id with
      | some i => .ok (some i)
      | none => .error ()
    else tmplAnyPass needle ts

/-- The GraphQL `_resolve_template`: the backend call result is
`templatesResult` (an error models any exception raised while fetching).  The
surrounding `try/except Exception: return None` turns every failure into
`none`; a found template yields its id. -/
def resolve_template (templatesResult : Except Unit (List Record))
    (templateName teamId : String) : Option String :=
  match templatesResult with
  | .error _ => none
  | .ok templates =>
    let needle := pyNorm templateName
    match tmplTeamPass needle teamId templates with
    | .error _ => none
    | .ok (some i) => some i
    | .ok none =>
      match tmplAnyPass needle templates with
      | .error _ => none
      | .ok r => r

/-- The `input` dict assembled by the GraphQL `create_issue`. -/
structure IssueCreateInput where
  teamId : String
  projectId : String
  title : String
  description : String
  templateId : Option String
deriving DecidableEq, Repr

/-- The attribute access `spec.template` performed by the GraphQL
`create_issue`: the parser IssueSpec class declares no template field, so on
every instance the access raises AttributeError (a pydantic model exposes
only its declared fields). -/
def specTemplateAttr (_sp : IssueSpec) : Except PyErr (Option String) :=
  .error .attrError

/-- The GraphQL `create_issue` up to the backend call: assemble the creation
input from the resolved identifiers and the spec, then evaluate
`if spec.template:` — which raises on every parser IssueSpec — and, were a
truthy template present, best-effort-resolve it and attach the id only when
found. -/
def create_issue_graphql (templatesResult : Except Unit (List Record))
    (sp : IssueSpec) (teamId projectId : String) : Except PyErr IssueCreateInput :=
  match specTemplateAttr sp with
  | .error e => .error e
  | .ok template =>
    .ok ⟨teamId, projectId, sp.title, sp.summary,
      if pyTruthy template then
        resolve_template templatesResult (template.getD "") teamId
      else none⟩

/-- Match of `_HEADER_PATTERN`, the regex `^([A-Za-z]+):\s*(.*)$`, against an
already stripped line: the letter prefix must be non-empty and immediately
followed by a colon; the value is the rest with leading whitespace dropped. -/
def headerMatch (s : String) : Option (String × String) :=
  match s.data.span Char.isAlpha with
  | (key, ':' :: rest) =>
    if key = [] then none else some (⟨key⟩, ⟨rest.dropWhile pyIsSpace⟩)
  | _ => none

/-- The `_VALID_HEADERS` (equal to `_REQUIRED_HEADERS`) set of parser.py. -/
def validHeaders : List String :=
  ["team", "project", "title", "summary"]

/-- The `values` dict of `parse_issue_spec` restricted to its possible keys
(`summary` is tracked by the `in_summary` flag and added at the end). -/
structure HeaderVals where
  team : Option String := none
  project : Option String := none
  title : Option String := none
deriving DecidableEq, Repr

/-- The line loop of `parse_issue_spec`: accumulates header values and, once
`Summary:` has been seen, every further line verbatim. -/
def parseLines : List String → HeaderVals → List String → Bool →
    Except PyErr (HeaderVals × List String × Bool)
  | [], vals, acc, ins => .ok (vals, acc, ins)
  | line :: rest, vals, acc, ins =>
    if ins then parseLines rest vals (acc ++ [line]) ins
    else
      match headerMatch (pyStrip line) with
      | some (key, value) =>
        let k := pyLower key
        if !(validHeaders.contains k) then .error (.unknownHeader key)
        else if k = "summary" then
          parseLines rest vals (if value ≠ "" then acc ++ [value] else acc) true
        else if k = "team" then
          if vals.team.isSome then .error (.duplicateHeader key)
          else parseLines rest { vals with team := some (pyStrip value) } acc ins
        else if k = "project" then
          if vals.project.isSome then .error (.duplicateHeader key)
          else parseLines rest { vals with project := some (pyStrip value) } acc ins
        else
          if vals.title.isSome then .error (.duplicateHeader key)
          else parseLines rest { vals with title := some (pyStrip value) } acc ins
      | none =>
        if pyStrip line = "" then parseLines rest vals acc ins
        else .error (.unexpectedContent line)

/-- Missing required headers in the sorted order Python reports them
(`summary` is always present at this point, having just been set). -/
def missingHeadersOf (vals : HeaderVals) : List String :=
  (if vals.project.isNone then ["project"] else []) ++
  (if vals.team.isNone then ["team"] else []) ++
  (if vals.title.isNone then ["title"] else [])

/-- The `parse_issue_spec` function of parser.py. -/
def parse_issue_spec (rawText : String) : Except PyErr IssueSpec :=
  if pyStrip rawText = "" then .error .emptyInput
  else
    match parseLines (pySplitlines rawText) {} [] false with
    | .error e => .error e
    | .ok (vals, summaryLines, ins) =>
      if !ins then .error .missingSummary
      else
        let summary := pyStrip (String.intercalate "\n" summaryLines)
        let missing := missingHeadersOf vals
        if missing ≠ [] then .error (.missingHeaders missing)
        else
          match mkIssueSpec (vals.team.getD "") (vals.project.getD "")
              (vals.title.getD "") summary with
          | .ok sp => .ok sp
          | .error fs => .error (.fieldEmpty fs)

/-- Assoc-list dict with Python semantics: assignment overwrites an existing
key in place, otherwise appends. -/
def dictInsert {α : Type} (d : List (String × α)) (k : String) (v : α) :
    List (String × α) :=
  match d with
  | [] => [(k, v)]
  | (k0, v0) :: rest =>
    if k0 = k then (k0, v) :: rest else (k0, v0) :: dictInsert rest k v

/-- First-match assoc lookup (keys are unique by `dictInsert` construction). -/
def dictGet {α : Type} (d : List (String × α)) (k : String) : Option α :=
  match d with
  | [] => none
  | (k0, v0) :: rest => if k0 = k then some v0 else dictGet rest k

/-- The dict a `csv.DictReader` builds for one data row, following the
CPython source: first `dict(zip(self.fieldnames, row))` — insertions left to
right, so a later duplicate fieldname overwrites an earlier value — then,
when the row is short, `d[key] = self.restval` (None) for every fieldname
beyond the row length, overwriting even a duplicated name that already got a
cell.  Extra cells go under the non-string restkey, unreachable by named
gets, hence dropped. -/
def rowDict (fieldnames row : List String) : List (String × Option String) :=
  (fieldnames.drop row.length).foldl (fun d k => dictInsert d k none)
    ((fieldnames.zip row).foldl (fun d kv => dictInsert d kv.1 (some kv.2)) [])

/-- Python `row.get(col, "")`: the default fires only when the key is absent;
a present key with value `None` yields `None`. -/
def rowGet (d : List (String × Option String)) (k : String) : Option String :=
  match dictGet d k with
  | none => some ""
  | some v => v

/-- Python `value.strip()` on a cell that may be `None`: stripping `None`
raises an `AttributeError`, which the row loop does not catch. -/
def stripCell (v : Option String) : Except PyErr String :=
  match v with
  | none => .error .attrError
  | some s => .ok (pyStrip s)

/-- The `normalized_fieldnames` dict comprehension: normalised name mapped to
the original header name, skipping falsy (empty) header cells, later
duplicates overwriting earlier ones. -/
def normFieldnames (fns : List String) : List (String × String) :=
  fns.foldl (fun d nm => if nm = "" then d else dictInsert d (pyNorm nm) nm) []

/-- The required CSV columns in the sorted order Python reports them. -/
def requiredColsSorted : List String :=
  ["project", "summary", "team", "title"]

/-- The `col_map`: original header names of the four required columns. -/
structure ColMap where
  team : String
  project : String
  title : String
  summary : String
deriving DecidableEq, Repr

/-- The row loop of `parse_csv_specs`.  `rowNum` is the enumerate counter
starting at 2; `DictReader` skips fully blank lines before enumeration, so
they do not advance the counter, while an all-empty-fields row does.  An
`AttributeError` from stripping a `None` cell aborts the whole loop. -/
def processRows (cm : ColMap) (fieldnames : List String) :
    List (List String) → Nat → List IssueSpec → List (Nat × List String) →
    Except PyErr (List IssueSpec × List (Nat × List String))
  | [], _, specs, errors => .ok (specs, errors)
  | [] :: rest, rowNum, specs, errors => processRows cm fieldnames rest rowNum specs errors
  | row :: rest, rowNum, specs, errors =>
    let d := rowDict fieldnames row
    match stripCell (rowGet d cm.team) with
    | .error e => .error e
    | .ok team =>
      match stripCell (rowGet d cm.project) with
      | .error e => .error e
      | .ok project =>
        match stripCell (rowGet d cm.title) with
        | .error e => .error e
        | .ok title =>
          match stripCell (rowGet d cm.summary) with
          | .error e => .error e
          | .ok summary =>
            if team = "" && project = "" && title = "" && summary = "" then
              processRows cm fieldnames rest (rowNum + 1) specs errors
            else
              match mkIssueSpec team project title summary with
              | .ok sp => processRows cm fieldnames rest (rowNum + 1) (specs ++ [sp]) errors
              | .error fs =>
                processRows cm fieldnames rest (rowNum + 1) specs (errors ++ [(rowNum, fs)])

/-- The `col_map` of `parse_csv_specs`: the original header names behind the
four required normalised column names (guarded by the missing-column check). -/
def colMapOf (header : List String) : ColMap :=
  ⟨(dictGet (normFieldnames header) "team").getD "",
   (dictGet (normFieldnames header) "project").getD "",
   (dictGet (normFieldnames header) "title").getD "",
   (dictGet (normFieldnames header) "summary").getD ""⟩

/-- The tail of `parse_csv_specs` after the row loop: aggregate collected row
errors, reject an empty result, otherwise return the spec list. -/
def finishRows : Except PyErr (List IssueSpec × List (Nat × List String)) →
    Except PyErr (List IssueSpec)
  | .error e => .error e
  | .ok (specs, errors) =>
    if errors ≠ [] then .error (.rowErrors errors)
    else if specs = [] then .error .noValidIssues
    else .ok specs

/-- The header handling of `parse_csv_specs`: validate the header row and the
required columns, then run the row loop. -/
def parseCsvRows : List (List String) → Except PyErr (List IssueSpec)
  | [] => .error .noHeaderRow
  | header :: dataRows =>
    if header = [] then .error .noHeaderRow
    else if requiredColsSorted.filter
        (fun c => (dictGet (normFieldnames header) c).isNone) ≠ [] then
      .error (.missingColumns
        (requiredColsSorted.filter (fun c => (dictGet (normFieldnames header) c).isNone))
        (sortStr ((normFieldnames header).map (·.1))))
    else finishRows (processRows (colMapOf header) header dataRows 2 [] [])

/-- The `parse_csv_specs` function of parser.py (quote-free CSV dialect). -/
def parse_csv_specs (csvText : String) (delim : Char) : Except PyErr (List IssueSpec) :=
  if pyStrip csvText = "" then .error .csvEmpty
  else parseCsvRows (csvRows csvText delim)

/-- Row classification used in statements about the row loop: a data row is
unproblematic when it is a blank line, or all four required cells are present
and either all empty after trimming (the silent skip) or all non-empty (a
valid row). -/
def rowOKb (cm : ColMap) (f : List String) (row : List String) : Bool :=
  match row with
  | [] => true
  | _ :: _ =>
    match rowGet (rowDict f row) cm.team, rowGet (rowDict f row) cm.project,
        rowGet (rowDict f row) cm.title, rowGet (rowDict f row) cm.summary with
    | some t, some p, some ti, some su =>
      (pyStrip t = "" && pyStrip p = "" && pyStrip ti = "" && pyStrip su = "")
        || (pyStrip t ≠ "" && pyStrip p ≠ "" && pyStrip ti ≠ "" && pyStrip su ≠ "")
    | _, _, _, _ => false

/-- The specification one data row contributes to the parse result: a valid
row (all four required cells present and non-empty after trimming) yields its
stripped fields, anything else yields nothing. -/
def rowToSpec (cm : ColMap) (f : List String) (row : List String) : Option IssueSpec :=
  match row with
  | [] => none
  | _ :: _ =>
    match rowGet (rowDict f row) cm.team, rowGet (rowDict f row) cm.project,
        rowGet (rowDict f row) cm.title, rowGet (rowDict f row) cm.summary with
    | some t, some p, some ti, some su =>
      if pyStrip t ≠ "" && pyStrip p ≠ "" && pyStrip ti ≠ "" && pyStrip su ≠ "" then
        some ⟨pyStrip t, pyStrip p, pyStrip ti, pyStrip su⟩
      else none
    | _, _, _, _ => none

/-- One backend call made by a client, recorded for counting. -/
inductive BCall where
  | listTeams
  | listProjects (teamId : String)
  | createProject (nm teamId : String)
deriving DecidableEq, Repr

/-- The backend collaborator behind one client: the team list, the project
list per team, and the record returned for a project creation.  Creation is
total, modelling the claim scenario in which the backend accepts it. -/
structure Backend where
  teams : List Record
  projects : String → List Record
  newProject : String → String → Record

/-- The mutable state of one client session: the two caches
(`_teams_cache`, `_projects_cache`) and the trace of backend calls made. -/
structure ClientState where
  teamsCache : Option (List Record)
  projectsCache : List (String × List Record)
  trace : List BCall

/-- A freshly constructed client: both caches empty, no calls made. -/
def freshState : ClientState :=
  ⟨none, [], []⟩

/-- The `_list_teams` read-through cache: serve on hit, fetch and populate on
miss. -/
def list_teams (B : Backend) (s : ClientState) : List Record × ClientState :=
  match s.teamsCache with
  | some ts => (ts, s)
  | none =>
    (B.teams, { s with teamsCache := some B.teams, trace := s.trace ++ [.listTeams] })

/-- The `_list_projects` read-through cache, keyed by team id. -/
def list_projects (B : Backend) (teamId : String) (s : ClientState) :
    List Record × ClientState :=
  match dictGet s.projectsCache teamId with
  | some ps => (ps, s)
  | none =>
    (B.projects teamId,
     { s with
        projectsCache := dictInsert s.projectsCache teamId (B.projects teamId),
        trace := s.trace ++ [.listProjects teamId] })

/-- The `_create_project` operation: call the backend, then append the new
record to the cached project list of the team (creating the entry if needed). -/
def create_project (B : Backend) (nm teamId : String) (s : ClientState) :
    Record × ClientState :=
  let p := B.newProject nm teamId
  let newList :=
    match dictGet s.projectsCache teamId with
    | some l => l ++ [p]
    | none => [p]
  (p, { s with
          projectsCache := dictInsert s.projectsCache teamId newList,
          trace := s.trace ++ [.createProject nm teamId] })

/-- The `_resolve_team` operation: list teams, then match by name. -/
def resolve_team (B : Backend) (teamName : String) (s : ClientState) :
    Except PyErr Record × ClientState :=
  (match_record (list_teams B s).1 teamName "team", (list_teams B s).2)

/-- The `_resolve_project` operation: extract the team id, list the projects
of the team, match by name; on a failed match, create the project when the
caller requested it, otherwise re-raise. -/
def resolve_project (B : Backend) (projectName : String) (team : Record)
    (createIfMissing : Bool) (s : ClientState) : Except PyErr Record × ClientState :=
  match record_id team with
  | .error e => (.error e, s)
  | .ok teamId =>
    match match_record (list_projects B teamId s).1 projectName "project" with
    | .ok r => (.ok r, (list_projects B teamId s).2)
    | .error e =>
      if createIfMissing then
        (.ok (create_project B projectName teamId (list_projects B teamId s).2).1,
          (create_project B projectName teamId (list_projects B teamId s).2).2)
      else (.error e, (list_projects B teamId s).2)

/-- The `resolve_identifiers` client operation: resolve the team, then the
project scoped to it. -/
def resolve_identifiers (B : Backend) (team project : String)
    (createMissing : Bool) (s : ClientState) :
    Except PyErr (Record × Record) × ClientState :=
  match (resolve_team B team s).1 with
  | .error e => (.error e, (resolve_team B team s).2)
  | .ok tr =>
    match (resolve_project B project tr createMissing (resolve_team B team s).2).1 with
    | .error e =>
      (.error e, (resolve_project B project tr createMissing (resolve_team B team s).2).2)
    | .ok pr =>
      (.ok (tr, pr), (resolve_project B project tr createMissing (resolve_team B team s).2).2)

/-- Run a batch of `resolve_identifiers` requests against one client session,
threading the session state. -/
def runResolves (B : Backend) : List (String × String × Bool) → ClientState → ClientState
  | [], s => s
  | (t, p, c) :: rest, s => runResolves B rest (resolve_identifiers B t p c s).2

/-- A concrete backend used to instantiate the caching theorem: one team,
no pre-existing projects, and project creation echoing the requested name. -/
def c6Backend : Backend :=
  { teams := [{ id := some "T1", name := some "Backend" }],
    projects := fun _ => [],
    newProject := fun nm tid => { id := some (tid ++ nm), name := some nm } }

/-- Number of team-list fetches in a call trace. -/
def teamFetches (tr : List BCall) : Nat :=
  tr.countP (· == .listTeams)

/-- Number of project-list fetches for one team in a call trace. -/
def projFetches (teamId : String) (tr : List BCall) : Nat :=
  tr.countP (· == .listProjects teamId)

/-- Number of project creations in a call trace whose name normalises to the
given needle, for the given team. -/
def projCreates (needle teamId : String) (tr : List BCall) : Nat :=
  tr.countP fun c =>
    match c with
    | .createProject m t => t == teamId && pyNorm m == needle
    | _ => false

/-- A backend whose created project records carry the requested name, so that
a subsequent lookup of the same name matches them (as the real Linear backend
echoes the project name in the creation payload). -/
def EchoesName (B : Backend) : Prop :=
  ∀ nm teamId, recMatchesNeedle (B.newProject nm teamId) (pyNorm nm) = true

/-- The caching invariant maintained by a client session. -/
def Inv (s : ClientState) : Prop :=
  (teamFetches s.trace ≤ 1) ∧
  (s.teamsCache = none → teamFetches s.trace = 0) ∧
  (∀ tid, projFetches tid s.trace ≤ 1) ∧
  (∀ tid, dictGet s.projectsCache tid = none → projFetches tid s.trace = 0) ∧
  (∀ n tid, projCreates n tid s.trace ≤ 1) ∧
  (∀ n tid, 1 ≤ projCreates n tid s.trace →
    ∃ l, dictGet s.projectsCache tid = some l ∧ ∃ r ∈ l, recMatchesNeedle r n = true)

/-- The issue payload returned by a successful backend creation (opaque). -/
def Issue : Type := String

instance : DecidableEq Issue := fun a b => String.decEq a b

instance : Repr Issue := ⟨fun s n => reprPrec (α := String) s n⟩

/-- The observable outcome of one `batch_csv` run past parsing: which specs
the loop attempted, which issues the backend created (they exist on the
backend whether or not they are later reported), the exit code, whether the
final summary block was printed, and what it reported. -/
structure BatchOutcome where
  attempted : List IssueSpec
  created : List Issue
  exitCode : Nat
  summaryPrinted : Bool
  reportedCreated : List Issue
  reportedFailed : List (IssueSpec × String)
deriving DecidableEq, Repr

/-- The `_run_batch` loop of `cli.batch_csv`: one combined
resolve-and-create step per spec (modelled by `step`), appending to `created`
on success and to `failed` on error; without `--continue-on-error` the first
failure re-raises, losing the local lists.  Returns created, failed, the
re-raised error if any, and the specs attempted. -/
def runBatchLoop (continueOnError : Bool) (step : IssueSpec → Except String Issue) :
    List IssueSpec → List Issue × List (IssueSpec × String) × Option String × List IssueSpec
  | [] => ([], [], none, [])
  | sp :: rest =>
    match step sp with
    | .ok issue =>
      let (c, f, ab, att) := runBatchLoop continueOnError step rest
      (issue :: c, f, ab, sp :: att)
    | .error e =>
      if continueOnError then
        let (c, f, ab, att) := runBatchLoop continueOnError step rest
        (c, (sp, e) :: f, ab, sp :: att)
      else ([], [(sp, e)], some e, [sp])

/-- The tail of `batch_csv` around `_run_batch`: a re-raised error is caught,
reported, and exits with code 1 before the summary block; otherwise the
summary prints the created and failed lists and the exit code is 1 exactly
when some spec failed. -/
def batch_csv_run (continueOnError : Bool) (step : IssueSpec → Except String Issue)
    (specs : List IssueSpec) : BatchOutcome :=
  let (c, f, ab, att) := runBatchLoop continueOnError step specs
  match ab with
  | some _ => ⟨att, c, 1, false, [], []⟩
  | none => ⟨att, c, (if f = [] then 0 else 1), true, c, f⟩

/-! Spec-side definitions, written from the words of the claims (not from the
source), for refinement comparison against the embedded code. -/

/-- Modelled from the claim C4 wording: every distinct non-empty value of the
fields {name, title, key, slug} across the entire candidate set, sorted. -/
def claimDistinctLabels (records : List Record) : List String :=
  sortedSet ((records.flatMap fun r => (labelFields r).filterMap id).filter (fun s => s ≠ ""))

/-- Modelled from the claim C9 wording: the value of the first populated field
in a given field order. -/
def claimFirstPopulated (l : List (Option String)) : Option String :=
  ((l.filter pyTruthy).head?).join

/-- Sorted ascending in the string order used by `sortStr`. -/
def StrSorted (l : List String) : Prop :=
  List.Pairwise (fun a b => strLe a b = true) l

/-! Helper lemmas about the string order and the insertion sort. -/

lemma char_eq_of_toNat_eq {a b : Char} (h : a.toNat = b.toNat) : a = b :=
  Char.ext (UInt32.toNat.inj h)

lemma strLtChars_self (l : List Char) : strLtChars l l = false := by
  induction l with
  | nil => rfl
  | cons a as ih => simp [strLtChars, ih]

lemma strLtChars_trans :
    ∀ (a b c : List Char), strLtChars a b = true → strLtChars b c = true →
      strLtChars a c = true := by
  intro a
  induction a with
  | nil =>
    intro b c h1 h2
    cases b with
    | nil => simp [strLtChars] at h1
    | cons bh bt =>
      cases c with
      | nil => simp [strLtChars] at h2
      | cons ch ct => rfl
  | cons ah as ih =>
    intro b c h1 h2
    cases b with
    | nil => simp [strLtChars] at h1
    | cons bh bt =>
      cases c with
      | nil => simp [strLtChars] at h2
      | cons ch ct =>
        simp only [strLtChars] at h1 h2 ⊢
        rcases Nat.lt_trichotomy ah.toNat bh.toNat with hab | hab | hab
        · rcases Nat.lt_trichotomy bh.toNat ch.toNat with hbc | hbc | hbc
          · rw [if_pos (Nat.lt_trans hab hbc)]
          · rw [if_pos (hbc ▸ hab)]
          · rw [if_neg (by omega), if_pos hbc] at h2
            cases h2
        · rcases Nat.lt_trichotomy bh.toNat ch.toNat with hbc | hbc | hbc
          · rw [if_pos (by omega)]
          · rw [if_neg (by omega), if_neg (by omega)] at h1
            rw [if_neg (by omega), if_neg (by omega)] at h2
            rw [if_neg (by omega), if_neg (by omega)]
            exact ih bt ct h1 h2
          · rw [if_neg (by omega), if_pos hbc] at h2
            cases h2
        · rw [if_neg (by omega), if_pos hab] at h1
          cases h1

lemma strLtChars_asymm {a b : List Char} (h : strLtChars a b = true) :
    strLtChars b a = false := by
  by_contra hc
  have hba : strLtChars b a = true := by
    cases hv : strLtChars b a
    · exact absurd hv hc
    · rfl
  have := strLtChars_trans _ _ _ h hba
  simp [strLtChars_self] at this

lemma strLtChars_connex :
    ∀ (a b : List Char), strLtChars a b = false → strLtChars b a = false → a = b := by
  intro a
  induction a with
  | nil =>
    intro b h1 _
    cases b with
    | nil => rfl
    | cons bh bt => simp [strLtChars] at h1
  | cons ah as ih =>
    intro b h1 h2
    cases b with
    | nil => simp [strLtChars] at h2
    | cons bh bt =>
      simp only [strLtChars] at h1 h2
      rcases Nat.lt_trichotomy ah.toNat bh.toNat with hab | hab | hab
      · rw [if_pos hab] at h1
        cases h1
      · rw [if_neg (by omega), if_neg (by omega)] at h1
        rw [if_neg (by omega), if_neg (by omega)] at h2
        rw [char_eq_of_toNat_eq hab, ih bt h1 h2]
      · rw [if_pos hab] at h2
        cases h2

lemma strLe_total (a b : String) : strLe a b = true ∨ strLe b a = true := by
  unfold strLe
  cases h : strLtChars b.data a.data
  · left; rfl
  · right
    rw [strLtChars_asymm h]
    rfl

lemma strLe_trans {a b c : String} (h1 : strLe a b = true) (h2 : strLe b c = true) :
    strLe a c = true := by
  unfold strLe at h1 h2 ⊢
  rw [Bool.not_eq_true'] at h1 h2 ⊢
  by_contra hc
  have hca : strLtChars c.data a.data = true := by
    cases hv : strLtChars c.data a.data
    · exact absurd hv hc
    · rfl
  cases hbc : strLtChars b.data c.data with
  | false =>
    have hde : c.data = b.data := strLtChars_connex _ _ h2 hbc
    rw [hde] at hca
    exact absurd hca (by rw [h1]; intro h; cases h)
  | true =>
    have := strLtChars_trans _ _ _ hbc hca
    rw [h1] at this
    cases this

lemma mem_insertSorted {a x : String} :
    ∀ {l : List String}, a ∈ insertSorted x l ↔ a = x ∨ a ∈ l := by
  intro l
  induction l with
  | nil => simp [insertSorted]
  | cons y ys ih =>
    unfold insertSorted
    by_cases h : strLe x y = true
    · simp [h]
    · simp [h, ih]
      tauto

lemma insertSorted_perm (x : String) :
    ∀ (l : List String), (insertSorted x l).Perm (x :: l)
  | [] => List.Perm.refl _
  | y :: ys => by
    unfold insertSorted
    by_cases h : strLe x y = true
    · simp [h]
    · simp only [h, if_false]
      exact ((insertSorted_perm x ys).cons y).trans (List.Perm.swap x y ys)

lemma sortStr_perm : ∀ (l : List String), (sortStr l).Perm l
  | [] => List.Perm.refl _
  | x :: xs => (insertSorted_perm x (sortStr xs)).trans ((sortStr_perm xs).cons x)

lemma sorted_insertSorted {x : String} :
    ∀ {l : List String}, StrSorted l → StrSorted (insertSorted x l) := by
  intro l
  induction l with
  | nil => intro _; simp [insertSorted, StrSorted]
  | cons y ys ih =>
    intro h
    rw [StrSorted, List.pairwise_cons] at h
    unfold insertSorted
    by_cases hxy : strLe x y = true
    · rw [if_pos hxy]
      rw [StrSorted, List.pairwise_cons]
      refine ⟨?_, List.Pairwise.cons h.1 h.2⟩
      intro z hz
      rcases List.mem_cons.mp hz with hz | hz
      · rw [hz]; exact hxy
      · exact strLe_trans hxy (h.1 z hz)
    · rw [if_neg hxy]
      rw [StrSorted, List.pairwise_cons]
      refine ⟨?_, ih h.2⟩
      intro z hz
      rw [mem_insertSorted] at hz
      rcases hz with hz | hz
      · rw [hz]
        rcases strLe_total x y with ht | ht
        · exact absurd ht hxy
        · exact ht
      · exact h.1 z hz

lemma sorted_sortStr : ∀ (l : List String), StrSorted (sortStr l)
  | [] => List.Pairwise.nil
  | _ :: xs => sorted_insertSorted (sorted_sortStr xs)

lemma mem_sortedSet {a : String} {l : List String} :
    a ∈ sortedSet l ↔ a ∈ l := by
  rw [sortedSet, (sortStr_perm _).mem_iff, List.mem_dedup]

lemma nodup_sortedSet (l : List String) : (sortedSet l).Nodup := by
  rw [sortedSet, (sortStr_perm _).nodup_iff]
  exact List.nodup_dedup l

lemma sorted_sortedSet (l : List String) : StrSorted (sortedSet l) :=
  sorted_sortStr l.dedup

/-! Helper lemmas about record matching and dict operations. -/

lemma bool_eq_false_of_not_true {b : Bool} (h : ¬ b = true) : b = false := by
  cases hv : b
  · rfl
  · exact absurd hv h

lemma findFirstMatch_eq_none_iff (needle : String) (records : List Record) :
    findFirstMatch needle records = none ↔
      ∀ r ∈ records, recMatchesNeedle r needle = false := by
  induction records with
  | nil => simp [findFirstMatch]
  | cons a rs ih =>
    rw [findFirstMatch]
    by_cases h : recMatchesNeedle a needle = true
    · rw [if_pos h]
      constructor
      · intro hc
        cases hc
      · intro hall
        rw [hall a (List.mem_cons_self a rs)] at h
        cases h
    · rw [if_neg h, ih]
      constructor
      · intro hall r0 h0
        rcases List.mem_cons.mp h0 with h0 | h0
        · rw [h0]
          exact bool_eq_false_of_not_true h
        · exact hall r0 h0
      · intro hall r0 h0
        exact hall r0 (List.mem_cons_of_mem a h0)

lemma findFirstMatch_eq_some_iff (needle : String) (records : List Record) (r : Record) :
    findFirstMatch needle records = some r ↔
      recMatchesNeedle r needle = true ∧
        ∃ pre post, records = pre ++ r :: post ∧
          ∀ r0 ∈ pre, recMatchesNeedle r0 needle = false := by
  induction records with
  | nil =>
    rw [findFirstMatch]
    constructor
    · intro hc
      cases hc
    · rintro ⟨_, pre, post, hdec, _⟩
      cases pre <;> cases hdec
  | cons a rs ih =>
    rw [findFirstMatch]
    by_cases h : recMatchesNeedle a needle = true
    · rw [if_pos h]
      constructor
      · intro he
        have ha : a = r := Option.some.inj he
        subst ha
        exact ⟨h, [], rs, rfl, by intro r0 h0; cases h0⟩
      · rintro ⟨hr, pre, post, hdec, hpre⟩
        cases pre with
        | nil =>
          injection hdec with h1 _
          rw [h1]
        | cons p ps =>
          injection hdec with h1 _
          have hp := hpre p (List.mem_cons_self p ps)
          rw [← h1] at hp
          rw [hp] at h
          cases h
    · rw [if_neg h, ih]
      constructor
      · rintro ⟨hr, pre, post, hdec, hpre⟩
        refine ⟨hr, a :: pre, post, by rw [hdec]; rfl, ?_⟩
        intro r0 h0
        rcases List.mem_cons.mp h0 with h0 | h0
        · rw [h0]
          exact bool_eq_false_of_not_true h
        · exact hpre r0 h0
      · rintro ⟨hr, pre, post, hdec, hpre⟩
        cases pre with
        | nil =>
          injection hdec with h1 _
          rw [← h1] at hr
          exact absurd hr h
        | cons p ps =>
          injection hdec with h1 h2
          refine ⟨hr, ps, post, h2, ?_⟩
          intro r0 h0
          exact hpre r0 (List.mem_cons_of_mem p h0)

lemma match_record_ok_iff (records : List Record) (expected label : String) (r : Record) :
    match_record records expected label = .ok r ↔
      recMatchesNeedle r (pyNorm expected) = true ∧
        ∃ pre post, records = pre ++ r :: post ∧
          ∀ r0 ∈ pre, recMatchesNeedle r0 (pyNorm expected) = false := by
  have key := findFirstMatch_eq_some_iff (pyNorm expected) records r
  rw [match_record]
  cases hf : findFirstMatch (pyNorm expected) records with
  | none =>
    constructor
    · intro hc
      cases hc
    · intro hrhs
      have := key.mpr hrhs
      rw [hf] at this
      cases this
  | some r1 =>
    constructor
    · intro hc
      have h1 : r1 = r := Except.ok.inj hc
      subst h1
      exact key.mp hf
    · intro hrhs
      have := key.mpr hrhs
      rw [hf] at this
      have h1 : r1 = r := Option.some.inj this
      rw [h1]

lemma match_record_error_of_no_match (records : List Record) (expected label : String)
    (h : ∀ r ∈ records, recMatchesNeedle r (pyNorm expected) = false) :
    match_record records expected label =
      .error (.notFound label expected
        (String.intercalate ", " (availableOptions records))) := by
  rw [match_record, (findFirstMatch_eq_none_iff (pyNorm expected) records).mpr h]

lemma firstTruthy_eq_claim (l : List (Option String)) :
    firstTruthy l = claimFirstPopulated l := by
  induction l with
  | nil => rfl
  | cons v vs ih =>
    rw [firstTruthy, claimFirstPopulated, List.filter_cons]
    cases h : pyTruthy v
    · simp only [Bool.false_eq_true, if_false]
      exact ih
    · simp

lemma dictGet_insert_self {α : Type} (d : List (String × α)) (k : String) (v : α) :
    dictGet (dictInsert d k v) k = some v := by
  induction d with
  | nil => simp [dictInsert, dictGet]
  | cons kv rest ih =>
    rw [dictInsert]
    by_cases h : kv.1 = k
    · rw [if_pos h, dictGet, if_pos h]
    · rw [if_neg h, dictGet, if_neg h]
      exact ih

lemma dictGet_insert_other {α : Type} (d : List (String × α)) (k k0 : String) (v : α)
    (h : k0 ≠ k) : dictGet (dictInsert d k v) k0 = dictGet d k0 := by
  induction d with
  | nil =>
    rw [dictInsert, dictGet, dictGet, if_neg (fun hc => h hc.symm), dictGet]
  | cons kv rest ih =>
    rw [dictInsert]
    by_cases hk : kv.1 = k
    · rw [if_pos hk, dictGet, dictGet]
      by_cases hk0 : kv.1 = k0
      · exact absurd (hk0.symm.trans hk) h
      · rw [if_neg hk0, if_neg hk0]
    · rw [if_neg hk, dictGet, dictGet]
      by_cases hk0 : kv.1 = k0
      · rw [if_pos hk0, if_pos hk0]
      · rw [if_neg hk0, if_neg hk0]
        exact ih

/-! Claim theorems. -/

/-- C1 (code_bug evaluation): on the claimed input the text-block parser does
not succeed with a template-carrying specification; it raises
ValueError("Unknown header Template") because `template` is not in
`_VALID_HEADERS` and the IssueSpec class has no template attribute, in
contradiction with the repository test `test_parse_success` and with
`client_factory.py`, which reads `spec.template`. -/
theorem c1_template_header_rejected :
    parse_issue_spec
        "Team: Backend\nProject: Payments\nTemplate: Story\nTitle: X\nSummary:\nline1\nline2\n"
      = .error (.unknownHeader "Template") := by
  decide

/-- C4 counterexample: for the single candidate with name "A" and key "B" and
the query "zzz", the not-found error enumerates only "A" (the first non-empty
label of the record), while the claim requires every distinct non-empty field
value, which would be "A, B". -/
theorem c4_counterexample_first_label_only :
    match_record [{ name := some "A", key := some "B" }] "zzz" "team"
        = .error (.notFound "team" "zzz" "A") ∧
      claimDistinctLabels [{ name := some "A", key := some "B" }] = ["A", "B"] ∧
      availableOptions [{ name := some "A", key := some "B" }] = ["A"] ∧
      ("A" : String) ≠ String.intercalate ", " ["A", "B"] := by
  decide

/-- C4 (amended): on no match, record matching fails with a not-found error
that carries the requested name and enumerates, sorted and deduplicated, one
label per candidate that has any non-empty label field — the first non-empty
value among name, title, key, slug — not every distinct field value. -/
theorem c4_not_found_enumeration :
    ∀ (records : List Record) (expected label : String),
      (∀ r ∈ records, recMatchesNeedle r (pyNorm expected) = false) →
      match_record records expected label =
          .error (.notFound label expected
            (String.intercalate ", " (availableOptions records))) ∧
        StrSorted (availableOptions records) ∧
        (availableOptions records).Nodup ∧
        (∀ s, s ∈ availableOptions records ↔
          ∃ r ∈ records, hasAnyLabel r = true ∧ firstLabel r = s) := by
  intro records expected label h
  refine ⟨match_record_error_of_no_match records expected label h,
    sorted_sortedSet _, nodup_sortedSet _, ?_⟩
  intro s
  rw [availableOptions, mem_sortedSet, List.mem_filterMap]
  constructor
  · rintro ⟨r, hr, hf⟩
    by_cases hl : hasAnyLabel r = true
    · rw [if_pos hl] at hf
      exact ⟨r, hr, hl, Option.some.inj hf⟩
    · rw [if_neg hl] at hf
      cases hf
  · rintro ⟨r, hr, hl, hs⟩
    exact ⟨r, hr, by rw [if_pos hl, hs]⟩

/-- C4 witness: the amended enumeration theorem applied to the concrete
no-match query of the counterexample. -/
theorem c4_not_found_enumeration_witness :
    (∀ r ∈ [({ name := some "A", key := some "B" } : Record)],
        recMatchesNeedle r (pyNorm "zzz") = false) ∧
      (match_record [{ name := some "A", key := some "B" }] "zzz" "team" =
          .error (.notFound "team" "zzz"
            (String.intercalate ", "
              (availableOptions [{ name := some "A", key := some "B" }]))) ∧
        StrSorted (availableOptions [{ name := some "A", key := some "B" }]) ∧
        (availableOptions [{ name := some "A", key := some "B" }]).Nodup ∧
        (∀ s, s ∈ availableOptions [{ name := some "A", key := some "B" }] ↔
          ∃ r ∈ [({ name := some "A", key := some "B" } : Record)],
            hasAnyLabel r = true ∧ firstLabel r = s)) :=
  ⟨by decide, c4_not_found_enumeration _ "zzz" "team" (by decide)⟩

/-- C5: record matching returns the first record in iteration order any of
whose name, title, key or slug fields equals the query after stripping
whitespace and lowercasing both sides, with no other tie-break; in
particular the record with id "t1" and name " Backend " matches the query
"backend". -/
theorem c5_match_first_record_in_order :
    (∀ (records : List Record) (expected label : String) (r : Record),
        match_record records expected label = .ok r ↔
          recMatchesNeedle r (pyNorm expected) = true ∧
            ∃ pre post, records = pre ++ r :: post ∧
              ∀ r0 ∈ pre, recMatchesNeedle r0 (pyNorm expected) = false) ∧
      match_record [{ id := some "t1", name := some " Backend " }] "backend" "team"
        = .ok { id := some "t1", name := some " Backend " } :=
  ⟨match_record_ok_iff, by decide⟩

/-- C9 counterexample: the MCP `_record_id` helper tries templateId before
identifier, so on a record carrying both it returns the templateId value,
while the claimed order (id, teamId, projectId, identifier) — implemented by
the base-client `_extract_id` — yields the identifier value. -/
theorem c9_counterexample_templateId_order :
    record_id { templateId := some "t", identifier := some "i" } = .ok "t" ∧
      extract_id { templateId := some "t", identifier := some "i" } = .ok "i" ∧
      ("t" : String) ≠ "i" := by
  decide

/-- C9 (amended): the base-client extraction returns the first populated
field in the order id, teamId, projectId, identifier and fails when none is
populated; the MCP record-id helper does the same but with templateId tried
between projectId and identifier; a record with only identifier set yields
that value under both. -/
theorem c9_identifier_extraction :
    (∀ r : Record,
        extract_id r =
          (match claimFirstPopulated [r.id, r.teamId, r.projectId, r.identifier] with
            | some s => .ok s
            | none => .error (.recordMissingId r)) ∧
        record_id r =
          (match claimFirstPopulated
              [r.id, r.teamId, r.projectId, r.templateId, r.identifier] with
            | some s => .ok s
            | none => .error (.recordMissingId r))) ∧
      (∀ v : String, v ≠ "" →
        extract_id { identifier := some v } = .ok v ∧
          record_id { identifier := some v } = .ok v) := by
  constructor
  · intro r
    constructor
    · rw [extract_id, firstTruthy_eq_claim]
    · rw [record_id, firstTruthy_eq_claim]
  · intro v hv
    constructor
    · rw [extract_id]
      simp [firstTruthy, pyTruthy, hv]
    · rw [record_id]
      simp [firstTruthy, pyTruthy, hv]

/-- C9 witness: the amended extraction theorem applied to a record with only
the identifier field set. -/
theorem c9_identifier_extraction_witness :
    (("x" : String) ≠ "") ∧
      (extract_id { identifier := some "x" } = .ok "x" ∧
        record_id { identifier := some "x" } = .ok "x") :=
  ⟨by decide, c9_identifier_extraction.2 "x" (by decide)⟩

lemma tmplTeamPass_eq_find (needle tid : String) :
    ∀ (ts : List Record), (∀ t ∈ ts, t.id.isSome = true) →
      tmplTeamPass needle tid ts =
        .ok (((ts.find? fun t =>
          (pyNorm (t.name.getD "") == needle) && (t.teamId == some tid))).bind Record.id) := by
  intro ts
  induction ts with
  | nil => intro _; rfl
  | cons t ts ih =>
    intro h
    have hmem : ∀ t0 ∈ ts, t0.id.isSome = true :=
      fun t0 ht0 => h t0 (List.mem_cons_of_mem t ht0)
    by_cases hn : (pyNorm (t.name.getD "") == needle) = true
    · by_cases ht : (t.teamId == some tid) = true
      · obtain ⟨i, hi⟩ := Option.isSome_iff_exists.mp (h t (List.mem_cons_self t ts))
        simp [tmplTeamPass, List.find?_cons, hn, ht, hi]
      · simp [tmplTeamPass, List.find?_cons, hn, bool_eq_false_of_not_true ht, ih hmem]
    · simp [tmplTeamPass, List.find?_cons, bool_eq_false_of_not_true hn, ih hmem]

lemma tmplAnyPass_eq_find (needle : String) :
    ∀ (ts : List Record), (∀ t ∈ ts, t.id.isSome = true) →
      tmplAnyPass needle ts =
        .ok (((ts.find? fun t => pyNorm (t.name.getD "") == needle)).bind Record.id) := by
  intro ts
  induction ts with
  | nil => intro _; rfl
  | cons t ts ih =>
    intro h
    have hmem : ∀ t0 ∈ ts, t0.id.isSome = true :=
      fun t0 ht0 => h t0 (List.mem_cons_of_mem t ht0)
    by_cases hn : (pyNorm (t.name.getD "") == needle) = true
    · obtain ⟨i, hi⟩ := Option.isSome_iff_exists.mp (h t (List.mem_cons_self t ts))
      simp [tmplAnyPass, List.find?_cons, hn, hi]
    · simp [tmplAnyPass, List.find?_cons, bool_eq_false_of_not_true hn, ih hmem]

/-- C7 (code_bug evaluation): the GraphQL create_issue never reaches the
backend for any parser IssueSpec — `if spec.template:` raises AttributeError
because the class has no template field — so creation is always blocked,
contrary to the claim that absence of a template never blocks creation.  The
resolution component itself does implement the claimed intent: any backend
error while fetching templates yields not-found (none), and on a fetched
template list whose entries carry ids, resolution returns the id of the
first case-insensitive name match whose team association equals the target
team, else the id of the first name match regardless of team, else none. -/
theorem c7_missing_template_field_blocks_creation :
    (∀ (tr : Except Unit (List Record)) (sp : IssueSpec) (tid pid : String),
        create_issue_graphql tr sp tid pid = .error .attrError) ∧
      (∀ (e : Unit) (nm tid : String), resolve_template (.error e) nm tid = none) ∧
      (∀ (ts : List Record) (nm tid : String),
        (∀ t ∈ ts, t.id.isSome = true) →
        resolve_template (.ok ts) nm tid =
          (match ts.find? (fun t =>
              (pyNorm (t.name.getD "") == pyNorm nm) && (t.teamId == some tid)) with
            | some t => t.id
            | none =>
              match ts.find? (fun t => pyNorm (t.name.getD "") == pyNorm nm) with
              | some t => t.id
              | none => none)) := by
  refine ⟨fun _ _ _ _ => rfl, fun _ _ _ => rfl, ?_⟩
  intro ts nm tid h
  rw [resolve_template]
  rw [tmplTeamPass_eq_find (pyNorm nm) tid ts h]
  cases hf : ts.find? (fun t =>
      (pyNorm (t.name.getD "") == pyNorm nm) && (t.teamId == some tid)) with
  | some t =>
    obtain ⟨i, hi⟩ :=
      Option.isSome_iff_exists.mp (h t (List.mem_of_find?_eq_some hf))
    simp [hi]
  | none =>
    rw [tmplAnyPass_eq_find (pyNorm nm) ts h]
    cases hf2 : ts.find? (fun t => pyNorm (t.name.getD "") == pyNorm nm) with
    | some t => simp
    | none => simp

/-- C7 witness: the blocked-creation evaluation at a concrete spec and the
resolution characterisation applied to a concrete template list in which the
team-scoped match is preferred over an earlier name-only match. -/
theorem c7_missing_template_field_witness :
    (∀ t ∈ [({ id := some "i1", teamId := some "T2", name := some "Story" } : Record),
            ({ id := some "i2", teamId := some "T1", name := some "story" } : Record)],
        t.id.isSome = true) ∧
      create_issue_graphql (.ok []) ⟨"T", "P", "X", "S"⟩ "tid" "pid"
        = .error .attrError ∧
      resolve_template
          (.ok [{ id := some "i1", teamId := some "T2", name := some "Story" },
                { id := some "i2", teamId := some "T1", name := some "story" }])
          "Story" "T1" =
        (match
            ([({ id := some "i1", teamId := some "T2", name := some "Story" } : Record),
              ({ id := some "i2", teamId := some "T1", name := some "story" } : Record)].find?
              fun t => (pyNorm (t.name.getD "") == pyNorm "Story") && (t.teamId == some "T1")) with
          | some t => t.id
          | none =>
            match
                ([({ id := some "i1", teamId := some "T2", name := some "Story" } : Record),
                  ({ id := some "i2", teamId := some "T1", name := some "story" } : Record)].find?
                  fun t => pyNorm (t.name.getD "") == pyNorm "Story") with
            | some t => t.id
            | none => none) :=
  ⟨by decide,
    c7_missing_template_field_blocks_creation.1 (.ok []) ⟨"T", "P", "X", "S"⟩ "tid" "pid",
    c7_missing_template_field_blocks_creation.2.2
      [{ id := some "i1", teamId := some "T2", name := some "Story" },
       { id := some "i2", teamId := some "T1", name := some "story" }]
      "Story" "T1" (by decide)⟩

lemma head_false_of_dropWhile_cons {p : Char → Bool} :
    ∀ {l : List Char} {a : Char} {as : List Char},
      l.dropWhile p = a :: as → p a = false := by
  intro l
  induction l with
  | nil =>
    intro a as h
    cases h
  | cons c cs ih =>
    intro a as h
    rw [List.dropWhile_cons] at h
    by_cases hc : p c = true
    · rw [if_pos hc] at h
      exact ih h
    · rw [if_neg hc] at h
      injection h with h1 _
      rw [← h1]
      exact bool_eq_false_of_not_true hc

lemma dropWhile_ne_nil_of_exists {p : Char → Bool} :
    ∀ {l : List Char}, (∃ c ∈ l, p c = false) → l.dropWhile p ≠ [] := by
  intro l
  induction l with
  | nil =>
    rintro ⟨c, hc, _⟩
    cases hc
  | cons a as ih =>
    rintro ⟨c, hc, hpc⟩
    rw [List.dropWhile_cons]
    by_cases ha : p a = true
    · rw [if_pos ha]
      apply ih
      rcases List.mem_cons.mp hc with hc | hc
      · rw [hc] at hpc
        rw [hpc] at ha
        cases ha
      · exact ⟨c, hc, hpc⟩
    · rw [if_neg ha]
      intro hh
      cases hh

lemma trimChars_ne_nil {l : List Char} (h : ∃ c ∈ l, pyIsSpace c = false) :
    trimChars l ≠ [] := by
  rw [trimChars]
  intro hh
  rw [List.reverse_eq_nil_iff] at hh
  have hA : l.dropWhile pyIsSpace ≠ [] := dropWhile_ne_nil_of_exists h
  obtain ⟨a, as, ha⟩ := List.exists_cons_of_ne_nil hA
  have hpa : pyIsSpace a = false := head_false_of_dropWhile_cons ha
  have : (l.dropWhile pyIsSpace).reverse.dropWhile pyIsSpace ≠ [] := by
    apply dropWhile_ne_nil_of_exists
    exact ⟨a, by rw [ha]; simp, hpa⟩
  exact this hh

lemma pyStrip_ne_empty {l : List Char} (h : ∃ c ∈ l, pyIsSpace c = false) :
    pyStrip ⟨l⟩ ≠ "" := by
  intro hh
  exact trimChars_ne_nil h (congrArg String.data hh)

lemma splitLinesAux_ne_nil : ∀ (l acc : List Char), splitLinesAux l acc ≠ [] := by
  intro l
  induction l with
  | nil =>
    intro acc hh
    cases hh
  | cons c cs ih =>
    intro acc
    rw [splitLinesAux]
    by_cases hc : c = '\n'
    · rw [if_pos hc]
      intro hh
      cases hh
    · rw [if_neg hc]
      exact ih (c :: acc)

lemma splitLinesAux_append (l1 l2 : List Char) (h : '\n' ∉ l1) :
    ∀ acc, splitLinesAux (l1 ++ '\n' :: l2) acc
      = (acc.reverse ++ l1) :: splitLinesAux l2 [] := by
  induction l1 with
  | nil =>
    intro acc
    simp [splitLinesAux]
  | cons c cs ih =>
    intro acc
    have hc : ¬ c = '\n' := fun hh => h (by rw [hh]; exact List.mem_cons_self '\n' cs)
    rw [List.cons_append, splitLinesAux, if_neg hc,
      ih (fun hm => h (List.mem_cons_of_mem c hm)) (c :: acc)]
    congr 1
    simp

lemma pySplitlines_head (l1 : List Char) (rest : String) (h : '\n' ∉ l1) :
    ∃ tl, pySplitlines ⟨l1 ++ '\n' :: rest.data⟩ = (⟨l1⟩ : String) :: tl := by
  rw [pySplitlines]
  have hne : (String.mk (l1 ++ '\n' :: rest.data)).data ≠ [] := by simp
  rw [if_neg hne]
  show ∃ tl, ((if (l1 ++ '\n' :: rest.data).getLast? = some '\n' then
      (splitLinesAux (l1 ++ '\n' :: rest.data) []).dropLast
    else splitLinesAux (l1 ++ '\n' :: rest.data) []).map (⟨·⟩)) = (⟨l1⟩ : String) :: tl
  rw [splitLinesAux_append l1 rest.data h []]
  simp only [List.reverse_nil, List.nil_append]
  by_cases hl : (l1 ++ '\n' :: rest.data).getLast? = some '\n'
  · rw [if_pos hl, List.dropLast_cons_of_ne_nil (splitLinesAux_ne_nil rest.data []),
      List.map_cons]
    exact ⟨_, rfl⟩
  · rw [if_neg hl, List.map_cons]
    exact ⟨_, rfl⟩

lemma csvRows_head (l1 : List Char) (rest : String) (delim : Char) (h : '\n' ∉ l1)
    (h2 : (⟨l1⟩ : String) ≠ "") :
    ∃ tl, csvRows ⟨l1 ++ '\n' :: rest.data⟩ delim
      = ((splitFieldsAux delim l1 []).map (⟨·⟩)) :: tl := by
  obtain ⟨tl, htl⟩ := pySplitlines_head l1 rest h
  rw [csvRows, htl, List.map_cons, if_neg h2]
  exact ⟨_, rfl⟩

/-- C8 counterexample: the same CSV body parses without a byte-order mark but
fails with it — the BOM is not stripped, it stays glued to the first header
name, so the required column team is reported missing. -/
theorem c8_counterexample_bom_not_stripped :
    parse_csv_specs "﻿team,project,title,summary\na,b,c,d\n" ','
        = .error (.missingColumns ["team"]
            ["project", "summary", "title", "﻿team"]) ∧
      parse_csv_specs "team,project,title,summary\na,b,c,d\n" ','
        = .ok [⟨"a", "b", "c", "d"⟩] := by
  decide

/-- C8 (amended): no byte-order-mark stripping happens anywhere in
parse_csv_specs; for every CSV body, a leading BOM becomes part of the first
header name (strip() does not remove U+FEFF), so the required team column is
not recognised and parsing fails with a missing-column error, unlike the same
input without the BOM. -/
theorem c8_bom_breaks_header_recognition :
    ∀ rest : String,
      parse_csv_specs ("﻿team,project,title,summary\n" ++ rest) ','
        = .error (.missingColumns ["team"]
            ["project", "summary", "title", "﻿team"]) := by
  intro rest
  have hS : ("﻿team,project,title,summary\n" ++ rest)
      = ⟨"﻿team,project,title,summary".data ++ '\n' :: rest.data⟩ := rfl
  rw [hS]
  obtain ⟨tl, htl⟩ := csvRows_head "﻿team,project,title,summary".data rest ','
    (by decide) (by decide)
  rw [parse_csv_specs,
    if_neg (pyStrip_ne_empty ⟨'﻿', by simp, by decide⟩), htl]
  rfl

lemma processRows_attrError (cm : ColMap) (fieldnames : List String) :
    ∀ (rows : List (List String)) (n : Nat) (specs : List IssueSpec)
      (errors : List (Nat × List String)),
      (∃ row ∈ rows, row ≠ [] ∧
        (rowGet (rowDict fieldnames row) cm.team = none ∨
         rowGet (rowDict fieldnames row) cm.project = none ∨
         rowGet (rowDict fieldnames row) cm.title = none ∨
         rowGet (rowDict fieldnames row) cm.summary = none)) →
      processRows cm fieldnames rows n specs errors = .error .attrError := by
  intro rows
  induction rows with
  | nil =>
    rintro n s e ⟨row, hrow, _⟩
    cases hrow
  | cons row rest ih =>
    rintro n s e ⟨r0, hr0, hne, hshort⟩
    cases row with
    | nil =>
      show processRows cm fieldnames rest n s e = .error .attrError
      apply ih
      rcases List.mem_cons.mp hr0 with hr0 | hr0
      · rw [hr0] at hne
        exact absurd rfl hne
      · exact ⟨r0, hr0, hne, hshort⟩
    | cons c cs =>
      rcases List.mem_cons.mp hr0 with hr0 | hr0
      · subst hr0
        rcases hshort with h | h | h | h
        · simp only [processRows]
          rw [h]
          rfl
        · cases hteam : rowGet (rowDict fieldnames (c :: cs)) cm.team with
          | none =>
            simp only [processRows]
            rw [hteam]
            rfl
          | some t =>
            simp only [processRows]
            rw [hteam, h]
            rfl
        · cases hteam : rowGet (rowDict fieldnames (c :: cs)) cm.team with
          | none =>
            simp only [processRows]
            rw [hteam]
            rfl
          | some t =>
            cases hproj : rowGet (rowDict fieldnames (c :: cs)) cm.project with
            | none =>
              simp only [processRows]
              rw [hteam, hproj]
              rfl
            | some pj =>
              simp only [processRows]
              rw [hteam, hproj, h]
              rfl
        · cases hteam : rowGet (rowDict fieldnames (c :: cs)) cm.team with
          | none =>
            simp only [processRows]
            rw [hteam]
            rfl
          | some t =>
            cases hproj : rowGet (rowDict fieldnames (c :: cs)) cm.project with
            | none =>
              simp only [processRows]
              rw [hteam, hproj]
              rfl
            | some pj =>
              cases hti : rowGet (rowDict fieldnames (c :: cs)) cm.title with
              | none =>
                simp only [processRows]
                rw [hteam, hproj, hti]
                rfl
              | some ti =>
                simp only [processRows]
                rw [hteam, hproj, hti, h]
                rfl
      · -- the short row is further down; step over the current row, whatever it does
        simp only [processRows]
        cases hteam : rowGet (rowDict fieldnames (c :: cs)) cm.team with
        | none => rfl
        | some t =>
          cases hproj : rowGet (rowDict fieldnames (c :: cs)) cm.project with
          | none => rfl
          | some pj =>
            cases hti : rowGet (rowDict fieldnames (c :: cs)) cm.title with
            | none => rfl
            | some ti =>
              cases hsu : rowGet (rowDict fieldnames (c :: cs)) cm.summary with
              | none => rfl
              | some su =>
                show (if pyStrip t = "" && pyStrip pj = "" && pyStrip ti = ""
                      && pyStrip su = "" then
                    processRows cm fieldnames rest (n + 1) s e
                  else
                    match mkIssueSpec (pyStrip t) (pyStrip pj) (pyStrip ti) (pyStrip su) with
                    | .ok sp => processRows cm fieldnames rest (n + 1) (s ++ [sp]) e
                    | .error fs => processRows cm fieldnames rest (n + 1) s
                        (e ++ [(n, fs)])) = .error .attrError
                have hex : ∃ row ∈ rest, row ≠ [] ∧
                    (rowGet (rowDict fieldnames row) cm.team = none ∨
                     rowGet (rowDict fieldnames row) cm.project = none ∨
                     rowGet (rowDict fieldnames row) cm.title = none ∨
                     rowGet (rowDict fieldnames row) cm.summary = none) :=
                  ⟨r0, hr0, hne, hshort⟩
                by_cases hempty : (pyStrip t = "" && pyStrip pj = "" && pyStrip ti = ""
                    && pyStrip su = "") = true
                · rw [if_pos hempty]
                  exact ih (n + 1) s e hex
                · rw [if_neg hempty]
                  cases mkIssueSpec (pyStrip t) (pyStrip pj) (pyStrip ti) (pyStrip su) with
                  | ok sp => exact ih (n + 1) (s ++ [sp]) e hex
                  | error fs => exact ih (n + 1) s (e ++ [(n, fs)]) hex

/-- C10 counterexample: a data row with fewer cells than the header does not
always abort the parse — when the only missing cell belongs to a non-required
extra column, the row parses fine and the whole input succeeds. -/
theorem c10_counterexample_short_row_extra_column :
    csvRows "team,project,title,summary,extra\na,b,c,d\n" ','
        = [["team", "project", "title", "summary", "extra"], ["a", "b", "c", "d"]] ∧
      (["a", "b", "c", "d"] : List String).length
        < (["team", "project", "title", "summary", "extra"] : List String).length ∧
      parse_csv_specs "team,project,title,summary,extra\na,b,c,d\n" ','
        = .ok [⟨"a", "b", "c", "d"⟩] := by
  decide

/-- C10 (amended): when a data row is short on a required column — its cell
for one of the mapped team/project/title/summary header names is the restval
None — the whole parse fails with the uncaught attribute error from stripping
None: it is not collected into the row-keyed aggregate and no partial result
is returned. -/
theorem c10_short_required_cell_kills_parse :
    ∀ (text : String) (delim : Char) (header : List String)
      (dataRows : List (List String)),
      pyStrip text ≠ "" →
      csvRows text delim = header :: dataRows →
      header ≠ [] →
      requiredColsSorted.filter
          (fun c => (dictGet (normFieldnames header) c).isNone) = [] →
      (∃ row ∈ dataRows, row ≠ [] ∧
        (rowGet (rowDict header row) (colMapOf header).team = none ∨
         rowGet (rowDict header row) (colMapOf header).project = none ∨
         rowGet (rowDict header row) (colMapOf header).title = none ∨
         rowGet (rowDict header row) (colMapOf header).summary = none)) →
      parse_csv_specs text delim = .error .attrError := by
  intro text delim header dataRows hne hrows hheader hmiss hex
  rw [parse_csv_specs, if_neg hne, hrows, parseCsvRows, if_neg hheader, hmiss,
    if_neg (fun hh => hh rfl),
    processRows_attrError (colMapOf header) header dataRows 2 [] [] hex]
  rfl

/-- C10 witness: the amended theorem applied to a concrete CSV whose second
data row misses the summary cell. -/
theorem c10_short_required_cell_witness :
    (pyStrip "team,project,title,summary\na,b,c,d\na,b,c\n" ≠ "" ∧
      csvRows "team,project,title,summary\na,b,c,d\na,b,c\n" ','
        = ["team", "project", "title", "summary"] :: [["a", "b", "c", "d"], ["a", "b", "c"]] ∧
      (["team", "project", "title", "summary"] : List String) ≠ [] ∧
      requiredColsSorted.filter
          (fun c =>
            (dictGet (normFieldnames ["team", "project", "title", "summary"]) c).isNone)
        = [] ∧
      (∃ row ∈ [["a", "b", "c", "d"], ["a", "b", "c"]], row ≠ [] ∧
        (rowGet (rowDict ["team", "project", "title", "summary"] row)
            (colMapOf ["team", "project", "title", "summary"]).team = none ∨
         rowGet (rowDict ["team", "project", "title", "summary"] row)
            (colMapOf ["team", "project", "title", "summary"]).project = none ∨
         rowGet (rowDict ["team", "project", "title", "summary"] row)
            (colMapOf ["team", "project", "title", "summary"]).title = none ∨
         rowGet (rowDict ["team", "project", "title", "summary"] row)
            (colMapOf ["team", "project", "title", "summary"]).summary = none))) ∧
      parse_csv_specs "team,project,title,summary\na,b,c,d\na,b,c\n" ','
        = .error .attrError := by
  refine ⟨⟨by decide, by decide, by decide, by decide, by decide⟩, ?_⟩
  exact c10_short_required_cell_kills_parse
    "team,project,title,summary\na,b,c,d\na,b,c\n" ','
    ["team", "project", "title", "summary"] [["a", "b", "c", "d"], ["a", "b", "c"]]
    (by decide) (by decide) (by decide) (by decide) (by decide)

lemma dropWhile_dropWhile (p : Char → Bool) (l : List Char) :
    (l.dropWhile p).dropWhile p = l.dropWhile p := by
  cases hdw : l.dropWhile p with
  | nil => rfl
  | cons a as =>
    rw [List.dropWhile_cons, if_neg]
    rw [head_false_of_dropWhile_cons hdw]
    intro hh
    cases hh

lemma getLast?_dropWhile (p : Char → Bool) :
    ∀ (l : List Char), l.dropWhile p ≠ [] → (l.dropWhile p).getLast? = l.getLast? := by
  intro l
  induction l with
  | nil =>
    intro h
    exact absurd rfl h
  | cons a as ih =>
    intro h
    rw [List.dropWhile_cons] at h ⊢
    by_cases hp : p a = true
    · rw [if_pos hp] at h ⊢
      rw [ih h]
      have has : as ≠ [] := by
        intro hh
        rw [hh] at h
        exact h rfl
      obtain ⟨b, bs, hbs⟩ := List.exists_cons_of_ne_nil has
      rw [hbs, List.getLast?_cons_cons]
    · rw [if_neg hp]

lemma trimChars_idem (l : List Char) : trimChars (trimChars l) = trimChars l := by
  cases hB : ((l.dropWhile pyIsSpace).reverse).dropWhile pyIsSpace with
  | nil =>
    have h0 : trimChars l = [] := by
      rw [trimChars, hB]
      rfl
    rw [h0]
    rfl
  | cons b bs =>
    have htl : trimChars l = (b :: bs).reverse := by rw [trimChars, hB]
    rw [htl]
    have hA : l.dropWhile pyIsSpace ≠ [] := by
      intro hh
      rw [hh] at hB
      cases hB
    obtain ⟨a, as, hA2⟩ := List.exists_cons_of_ne_nil hA
    have hpa : pyIsSpace a = false := head_false_of_dropWhile_cons hA2
    have hlast : (b :: bs).getLast? = some a := by
      rw [← hB, getLast?_dropWhile pyIsSpace _ (by rw [hB]; intro hh; cases hh),
        List.getLast?_reverse, hA2]
      rfl
    have hstep1 : ((b :: bs).reverse).dropWhile pyIsSpace = (b :: bs).reverse := by
      obtain ⟨c, cs, hc⟩ :=
        List.exists_cons_of_ne_nil (l := (b :: bs).reverse) (by simp)
      have hca : c = a := by
        have := List.head?_reverse (b :: bs)
        rw [hc, hlast] at this
        exact Option.some.inj this
      rw [hc, List.dropWhile_cons, if_neg]
      rw [hca, hpa]
      intro hh
      cases hh
    rw [trimChars, hstep1, List.reverse_reverse, ← hB,
      dropWhile_dropWhile, hB]

lemma pyStrip_idem (s : String) : pyStrip (pyStrip s) = pyStrip s :=
  congrArg String.mk (trimChars_idem s.data)

lemma mkIssueSpec_of_stripped_nonempty {t p ti su : String}
    (h1 : pyStrip t ≠ "") (h2 : pyStrip p ≠ "") (h3 : pyStrip ti ≠ "")
    (h4 : pyStrip su ≠ "") :
    mkIssueSpec (pyStrip t) (pyStrip p) (pyStrip ti) (pyStrip su)
      = .ok ⟨pyStrip t, pyStrip p, pyStrip ti, pyStrip su⟩ := by
  rw [mkIssueSpec]
  simp only [pyStrip_idem]
  rw [if_neg h1, if_neg h2, if_neg h3, if_neg h4]
  rfl

lemma processRows_all_ok (cm : ColMap) (f : List String) :
    ∀ (rows : List (List String)) (n : Nat) (specs : List IssueSpec)
      (errors : List (Nat × List String)),
      (∀ row ∈ rows, rowOKb cm f row = true) →
      processRows cm f rows n specs errors
        = .ok (specs ++ rows.filterMap (rowToSpec cm f), errors) := by
  intro rows
  induction rows with
  | nil =>
    intro n s e _
    simp [processRows]
  | cons row rest ih =>
    intro n s e hall
    have hrest : ∀ r ∈ rest, rowOKb cm f r = true :=
      fun r hr => hall r (List.mem_cons_of_mem row hr)
    have hrow := hall row (List.mem_cons_self row rest)
    cases row with
    | nil =>
      show processRows cm f rest n s e = _
      rw [ih n s e hrest]
      rfl
    | cons c cs =>
      cases hteam : rowGet (rowDict f (c :: cs)) cm.team with
      | none =>
        simp [rowOKb, hteam] at hrow
      | some t =>
        cases hproj : rowGet (rowDict f (c :: cs)) cm.project with
        | none =>
          simp [rowOKb, hteam, hproj] at hrow
        | some pj =>
          cases hti : rowGet (rowDict f (c :: cs)) cm.title with
          | none =>
            simp [rowOKb, hteam, hproj, hti] at hrow
          | some ti =>
            cases hsu : rowGet (rowDict f (c :: cs)) cm.summary with
            | none =>
              simp [rowOKb, hteam, hproj, hti, hsu] at hrow
            | some su =>
              simp only [rowOKb, hteam, hproj, hti, hsu] at hrow
              simp only [processRows]
              rw [hteam, hproj, hti, hsu]
              show (if pyStrip t = "" && pyStrip pj = "" && pyStrip ti = ""
                    && pyStrip su = "" then
                  processRows cm f rest (n + 1) s e
                else
                  match mkIssueSpec (pyStrip t) (pyStrip pj) (pyStrip ti) (pyStrip su) with
                  | .ok sp => processRows cm f rest (n + 1) (s ++ [sp]) e
                  | .error fs => processRows cm f rest (n + 1) s (e ++ [(n, fs)]))
                = .ok (s ++ ((c :: cs) :: rest).filterMap (rowToSpec cm f), e)
              by_cases hem : (pyStrip t = "" && pyStrip pj = "" && pyStrip ti = ""
                  && pyStrip su = "") = true
              · rw [if_pos hem, ih (n + 1) s e hrest]
                simp only [Bool.and_eq_true, decide_eq_true_eq] at hem
                have hnone : rowToSpec cm f (c :: cs) = none := by
                  simp [rowToSpec, hteam, hproj, hti, hsu, hem.1.1.1]
                rw [List.filterMap_cons, hnone]
              · rw [if_neg hem]
                rw [Bool.or_eq_true] at hrow
                rcases hrow with hc | hc
                · exact absurd hc hem
                · simp only [Bool.and_eq_true, decide_eq_true_eq] at hc
                  obtain ⟨⟨⟨hc1, hc2⟩, hc3⟩, hc4⟩ := hc
                  rw [mkIssueSpec_of_stripped_nonempty hc1 hc2 hc3 hc4]
                  show processRows cm f rest (n + 1)
                      (s ++ [(⟨pyStrip t, pyStrip pj, pyStrip ti, pyStrip su⟩ : IssueSpec)]) e
                    = Except.ok (s ++ List.filterMap (rowToSpec cm f) ((c :: cs) :: rest), e)
                  rw [ih (n + 1) (s ++ [(⟨pyStrip t, pyStrip pj, pyStrip ti, pyStrip su⟩ :
                      IssueSpec)]) e hrest]
                  have hsome : rowToSpec cm f (c :: cs)
                      = some ⟨pyStrip t, pyStrip pj, pyStrip ti, pyStrip su⟩ := by
                    simp [rowToSpec, hteam, hproj, hti, hsu, hc1, hc2, hc3, hc4]
                  rw [List.filterMap_cons, hsome]
                  simp

/-- C3 counterexample: a CSV with all required columns and a fully valid data
row still fails as a whole when another non-blank row has only some required
fields empty — the claimed success does not hold for every such input. -/
theorem c3_counterexample_mixed_rows :
    parse_csv_specs "team,project,title,summary\na,b,c,d\nx,,,\n" ','
        = .error (.rowErrors [(3, ["project", "title", "summary"])]) ∧
      rowToSpec (colMapOf ["team", "project", "title", "summary"])
          ["team", "project", "title", "summary"] ["a", "b", "c", "d"]
        = some ⟨"a", "b", "c", "d"⟩ ∧
      requiredColsSorted.filter
          (fun c =>
            (dictGet (normFieldnames ["team", "project", "title", "summary"]) c).isNone)
        = [] := by
  decide

/-- C3 (amended): when every required column is present, every data row is
either a blank line, an all-empty-fields row, or a fully valid row, and at
least one valid row exists, parsing succeeds and returns exactly the specs of
the valid rows in input order; blank and all-empty rows contribute neither a
spec nor a collected error. -/
theorem c3_csv_success_per_valid_row :
    ∀ (text : String) (delim : Char) (header : List String)
      (dataRows : List (List String)),
      pyStrip text ≠ "" →
      csvRows text delim = header :: dataRows →
      header ≠ [] →
      requiredColsSorted.filter
          (fun c => (dictGet (normFieldnames header) c).isNone) = [] →
      (∀ row ∈ dataRows, rowOKb (colMapOf header) header row = true) →
      (∃ row ∈ dataRows, (rowToSpec (colMapOf header) header row).isSome = true) →
      parse_csv_specs text delim
        = .ok (dataRows.filterMap (rowToSpec (colMapOf header) header)) := by
  intro text delim header dataRows hne hrows hheader hmiss hall hex
  rw [parse_csv_specs, if_neg hne, hrows, parseCsvRows, if_neg hheader, hmiss,
    if_neg (fun hh => hh rfl),
    processRows_all_ok (colMapOf header) header dataRows 2 [] [] hall]
  have hspecs : dataRows.filterMap (rowToSpec (colMapOf header) header) ≠ [] := by
    obtain ⟨row, hrow, hsome⟩ := hex
    obtain ⟨sp, hsp⟩ := Option.isSome_iff_exists.mp hsome
    exact List.ne_nil_of_mem (List.mem_filterMap.mpr ⟨row, hrow, hsp⟩)
  rw [finishRows]
  rw [if_neg (fun hh => hh rfl)]
  rw [List.nil_append]
  rw [if_neg hspecs]

/-- C3 witness: the amended theorem applied to a CSV with one valid row, one
blank line and one all-empty row. -/
theorem c3_csv_success_witness :
    (pyStrip "team,project,title,summary\na,b,c,d\n\n,,,\ne,f,g,h\n" ≠ "" ∧
      csvRows "team,project,title,summary\na,b,c,d\n\n,,,\ne,f,g,h\n" ','
        = ["team", "project", "title", "summary"]
            :: [["a", "b", "c", "d"], [], ["", "", "", ""], ["e", "f", "g", "h"]] ∧
      (["team", "project", "title", "summary"] : List String) ≠ [] ∧
      requiredColsSorted.filter
          (fun c =>
            (dictGet (normFieldnames ["team", "project", "title", "summary"]) c).isNone)
        = [] ∧
      (∀ row ∈ [["a", "b", "c", "d"], [], ["", "", "", ""], ["e", "f", "g", "h"]],
        rowOKb (colMapOf ["team", "project", "title", "summary"])
          ["team", "project", "title", "summary"] row = true) ∧
      (∃ row ∈ [["a", "b", "c", "d"], [], ["", "", "", ""], ["e", "f", "g", "h"]],
        (rowToSpec (colMapOf ["team", "project", "title", "summary"])
          ["team", "project", "title", "summary"] row).isSome = true)) ∧
      parse_csv_specs "team,project,title,summary\na,b,c,d\n\n,,,\ne,f,g,h\n" ','
        = .ok ([["a", "b", "c", "d"], [], ["", "", "", ""], ["e", "f", "g", "h"]].filterMap
            (rowToSpec (colMapOf ["team", "project", "title", "summary"])
              ["team", "project", "title", "summary"])) := by
  refine ⟨⟨by decide, by decide, by decide, by decide, by decide, by decide⟩, ?_⟩
  exact c3_csv_success_per_valid_row
    "team,project,title,summary\na,b,c,d\n\n,,,\ne,f,g,h\n" ','
    ["team", "project", "title", "summary"]
    [["a", "b", "c", "d"], [], ["", "", "", ""], ["e", "f", "g", "h"]]
    (by decide) (by decide) (by decide) (by decide) (by decide) (by decide)

lemma runBatchLoop_stop (step : IssueSpec → Except String Issue) (bad : IssueSpec)
    (rest : List IssueSpec) (e : String) :
    ∀ (good : List IssueSpec),
      (∀ sp ∈ good, (step sp).isOk = true) →
      step bad = .error e →
      runBatchLoop false step (good ++ bad :: rest)
        = (good.filterMap (fun sp => (step sp).toOption), [(bad, e)], some e,
            good ++ [bad]) := by
  intro good
  induction good with
  | nil =>
    intro _ hbad
    rw [List.nil_append, runBatchLoop, hbad]
    rfl
  | cons g gs ih =>
    intro hgood hbad
    have hg := hgood g (List.mem_cons_self g gs)
    cases hstep : step g with
    | error e0 =>
      rw [hstep] at hg
      cases hg
    | ok issue =>
      rw [List.cons_append, runBatchLoop, hstep,
        ih (fun sp hsp => hgood sp (List.mem_cons_of_mem g hsp)) hbad]
      rw [List.filterMap_cons, hstep]
      rfl

/-- C2 counterexample: a two-spec batch whose second spec fails under the
default stop-on-first-error policy exits non-zero and creates the first issue
on the backend, but the summary block is never printed and reports nothing —
contradicting the claim that already-created issues are reported in the run
summary. -/
theorem c2_counterexample_no_summary_on_abort :
    batch_csv_run false
        (fun sp => if sp.title = "A" then .ok "LIN-1" else .error "boom")
        [⟨"T", "P", "A", "S"⟩, ⟨"T", "P", "B", "S"⟩]
      = { attempted := [⟨"T", "P", "A", "S"⟩, ⟨"T", "P", "B", "S"⟩],
          created := ["LIN-1"], exitCode := 1, summaryPrinted := false,
          reportedCreated := [], reportedFailed := [] } := by
  decide

/-- C2 (amended): under the default stop-on-first-error policy, when specs
before position k succeed and spec k fails, the batch attempts exactly the
specs up to and including k, the issues created for the earlier specs remain
created on the backend (nothing rolls them back), and the process exits
non-zero; however the run summary block is not printed and neither the
created nor the failed issues are reported in it, because the loop re-raises
the error past the summary code. -/
theorem c2_stop_on_first_error :
    ∀ (step : IssueSpec → Except String Issue) (good : List IssueSpec)
      (bad : IssueSpec) (rest : List IssueSpec) (e : String),
      (∀ sp ∈ good, (step sp).isOk = true) →
      step bad = .error e →
      batch_csv_run false step (good ++ bad :: rest)
        = { attempted := good ++ [bad],
            created := good.filterMap (fun sp => (step sp).toOption),
            exitCode := 1, summaryPrinted := false,
            reportedCreated := [], reportedFailed := [] } := by
  intro step good bad rest e hgood hbad
  rw [batch_csv_run, runBatchLoop_stop step bad rest e good hgood hbad]

/-- C2 witness: the amended theorem applied to the concrete two-spec batch of
the counterexample. -/
theorem c2_stop_on_first_error_witness :
    ((∀ sp ∈ [(⟨"T", "P", "A", "S"⟩ : IssueSpec)],
        ((fun sp => if sp.title = "A" then (.ok "LIN-1" : Except String Issue)
          else .error "boom") sp).isOk = true) ∧
      (fun sp => if sp.title = "A" then (.ok "LIN-1" : Except String Issue)
        else .error "boom") (⟨"T", "P", "B", "S"⟩ : IssueSpec) = .error "boom") ∧
      batch_csv_run false
          (fun sp => if sp.title = "A" then .ok "LIN-1" else .error "boom")
          ([⟨"T", "P", "A", "S"⟩] ++ ⟨"T", "P", "B", "S"⟩ :: [])
        = { attempted := [⟨"T", "P", "A", "S"⟩] ++ [⟨"T", "P", "B", "S"⟩],
            created := [(⟨"T", "P", "A", "S"⟩ : IssueSpec)].filterMap
              (fun sp => ((fun sp => if sp.title = "A" then (.ok "LIN-1" : Except String Issue)
                else .error "boom") sp).toOption),
            exitCode := 1, summaryPrinted := false,
            reportedCreated := [], reportedFailed := [] } :=
  ⟨⟨by decide, by decide⟩,
    c2_stop_on_first_error
      (fun sp => if sp.title = "A" then .ok "LIN-1" else .error "boom")
      [⟨"T", "P", "A", "S"⟩] ⟨"T", "P", "B", "S"⟩ [] "boom"
      (by decide) (by decide)⟩

lemma countP_snoc (p : BCall → Bool) (tr : List BCall) (c : BCall) :
    (tr ++ [c]).countP p = tr.countP p + (if p c = true then 1 else 0) := by
  rw [List.countP_append, List.countP_cons, List.countP_nil, Nat.zero_add]

lemma teamFetches_snoc_listTeams (tr : List BCall) :
    teamFetches (tr ++ [.listTeams]) = teamFetches tr + 1 := by
  simp [teamFetches, countP_snoc]

lemma teamFetches_snoc_listProjects (tr : List BCall) (tid : String) :
    teamFetches (tr ++ [.listProjects tid]) = teamFetches tr := by
  simp [teamFetches, countP_snoc]

lemma teamFetches_snoc_createProject (tr : List BCall) (nm tid : String) :
    teamFetches (tr ++ [.createProject nm tid]) = teamFetches tr := by
  simp [teamFetches, countP_snoc]

lemma projFetches_snoc_listTeams (tr : List BCall) (tid : String) :
    projFetches tid (tr ++ [.listTeams]) = projFetches tid tr := by
  simp [projFetches, countP_snoc]

lemma projFetches_snoc_createProject (tr : List BCall) (nm tid0 tid : String) :
    projFetches tid (tr ++ [.createProject nm tid0]) = projFetches tid tr := by
  simp [projFetches, countP_snoc]

lemma projFetches_snoc_listProjects (tr : List BCall) (tid0 tid : String) :
    projFetches tid (tr ++ [.listProjects tid0])
      = projFetches tid tr + (if tid0 = tid then 1 else 0) := by
  by_cases h : tid0 = tid
  · subst h
    simp [projFetches, countP_snoc]
  · simp [projFetches, countP_snoc, h]

lemma projCreates_snoc_listTeams (tr : List BCall) (n tid : String) :
    projCreates n tid (tr ++ [.listTeams]) = projCreates n tid tr := by
  simp [projCreates, countP_snoc]

lemma projCreates_snoc_listProjects (tr : List BCall) (tid0 n tid : String) :
    projCreates n tid (tr ++ [.listProjects tid0]) = projCreates n tid tr := by
  simp [projCreates, countP_snoc]

lemma projCreates_snoc_createProject (tr : List BCall) (nm tid0 n tid : String) :
    projCreates n tid (tr ++ [.createProject nm tid0])
      = projCreates n tid tr + (if tid0 = tid ∧ pyNorm nm = n then 1 else 0) := by
  by_cases h1 : tid0 = tid <;> by_cases h2 : pyNorm nm = n <;>
    simp [projCreates, countP_snoc, h1, h2]

lemma inv_freshState : Inv freshState := by
  refine ⟨?_, ?_, ?_, ?_, ?_, ?_⟩
  · simp [teamFetches, freshState]
  · intro _
    simp [teamFetches, freshState]
  · intro tid
    simp [projFetches, freshState]
  · intro tid _
    simp [projFetches, freshState]
  · intro n tid
    simp [projCreates, freshState]
  · intro n tid h
    simp [projCreates, freshState] at h

lemma inv_list_teams (B : Backend) (s : ClientState) (h : Inv s) :
    Inv (list_teams B s).2 := by
  obtain ⟨hA, hB2, hC, hD, hE, hF⟩ := h
  rw [list_teams]
  cases hc : s.teamsCache with
  | some ts => exact ⟨hA, hB2, hC, hD, hE, hF⟩
  | none =>
    refine ⟨?_, ?_, ?_, ?_, ?_, ?_⟩
    · show teamFetches (s.trace ++ [.listTeams]) ≤ 1
      rw [teamFetches_snoc_listTeams, hB2 hc]
    · intro hq
      cases hq
    · intro tid
      show projFetches tid (s.trace ++ [.listTeams]) ≤ 1
      rw [projFetches_snoc_listTeams]
      exact hC tid
    · intro tid hq
      show projFetches tid (s.trace ++ [.listTeams]) = 0
      rw [projFetches_snoc_listTeams]
      exact hD tid hq
    · intro n tid
      show projCreates n tid (s.trace ++ [.listTeams]) ≤ 1
      rw [projCreates_snoc_listTeams]
      exact hE n tid
    · intro n tid hq
      show ∃ l, _ ∧ _
      rw [projCreates_snoc_listTeams] at hq
      exact hF n tid hq

lemma list_projects_lookup (B : Backend) (tid : String) (s : ClientState) :
    dictGet (list_projects B tid s).2.projectsCache tid = some (list_projects B tid s).1 := by
  rw [list_projects]
  cases hc : dictGet s.projectsCache tid with
  | some ps => exact hc
  | none => exact dictGet_insert_self s.projectsCache tid (B.projects tid)

lemma inv_list_projects (B : Backend) (tid : String) (s : ClientState) (h : Inv s) :
    Inv (list_projects B tid s).2 := by
  obtain ⟨hA, hB2, hC, hD, hE, hF⟩ := h
  rw [list_projects]
  cases hc : dictGet s.projectsCache tid with
  | some ps => exact ⟨hA, hB2, hC, hD, hE, hF⟩
  | none =>
    refine ⟨?_, ?_, ?_, ?_, ?_, ?_⟩
    · show teamFetches (s.trace ++ [.listProjects tid]) ≤ 1
      rw [teamFetches_snoc_listProjects]
      exact hA
    · intro hq
      show teamFetches (s.trace ++ [.listProjects tid]) = 0
      rw [teamFetches_snoc_listProjects]
      exact hB2 hq
    · intro tid2
      show projFetches tid2 (s.trace ++ [.listProjects tid]) ≤ 1
      rw [projFetches_snoc_listProjects]
      by_cases he : tid = tid2
      · rw [if_pos he]
        subst he
        rw [hD tid hc]
      · rw [if_neg he, Nat.add_zero]
        exact hC tid2
    · intro tid2 hq
      show projFetches tid2 (s.trace ++ [.listProjects tid]) = 0
      by_cases he : tid = tid2
      · subst he
        rw [dictGet_insert_self] at hq
        cases hq
      · rw [dictGet_insert_other _ _ _ _ (fun hx => he hx.symm)] at hq
        rw [projFetches_snoc_listProjects, if_neg he, Nat.add_zero]
        exact hD tid2 hq
    · intro n tid2
      show projCreates n tid2 (s.trace ++ [.listProjects tid]) ≤ 1
      rw [projCreates_snoc_listProjects]
      exact hE n tid2
    · intro n tid2 hq
      rw [projCreates_snoc_listProjects] at hq
      by_cases he : tid2 = tid
      · subst he
        obtain ⟨l, hl, _⟩ := hF n tid2 hq
        rw [hc] at hl
        cases hl
      · obtain ⟨l, hl, hr⟩ := hF n tid2 hq
        exact ⟨l, by rw [dictGet_insert_other _ _ _ _ he]; exact hl, hr⟩

lemma inv_create_project (B : Backend) (nm tid : String) (s : ClientState)
    (hEcho : EchoesName B) (h : Inv s) (l : List Record)
    (hlook : dictGet s.projectsCache tid = some l)
    (hnomatch : ∀ r ∈ l, recMatchesNeedle r (pyNorm nm) = false) :
    Inv (create_project B nm tid s).2 := by
  obtain ⟨hA, hB2, hC, hD, hE, hF⟩ := h
  rw [create_project]
  simp only [hlook]
  refine ⟨?_, ?_, ?_, ?_, ?_, ?_⟩
  · show teamFetches (s.trace ++ [.createProject nm tid]) ≤ 1
    rw [teamFetches_snoc_createProject]
    exact hA
  · intro hq
    show teamFetches (s.trace ++ [.createProject nm tid]) = 0
    rw [teamFetches_snoc_createProject]
    exact hB2 hq
  · intro tid2
    show projFetches tid2 (s.trace ++ [.createProject nm tid]) ≤ 1
    rw [projFetches_snoc_createProject]
    exact hC tid2
  · intro tid2 hq
    show projFetches tid2 (s.trace ++ [.createProject nm tid]) = 0
    by_cases he : tid = tid2
    · subst he
      rw [dictGet_insert_self] at hq
      cases hq
    · rw [dictGet_insert_other _ _ _ _ (fun hx => he hx.symm)] at hq
      rw [projFetches_snoc_createProject]
      exact hD tid2 hq
  · intro n tid2
    show projCreates n tid2 (s.trace ++ [.createProject nm tid]) ≤ 1
    rw [projCreates_snoc_createProject]
    by_cases he : tid = tid2 ∧ pyNorm nm = n
    · rw [if_pos he]
      obtain ⟨he1, he2⟩ := he
      subst he1
      subst he2
      have hzero : projCreates (pyNorm nm) tid s.trace = 0 := by
        by_contra hnz
        have h1 : 1 ≤ projCreates (pyNorm nm) tid s.trace := Nat.one_le_iff_ne_zero.mpr hnz
        obtain ⟨l2, hl2, r, hrmem, hrmatch⟩ := hF (pyNorm nm) tid h1
        rw [hlook] at hl2
        have : l = l2 := Option.some.inj hl2
        subst this
        rw [hnomatch r hrmem] at hrmatch
        cases hrmatch
      rw [hzero]
    · rw [if_neg he, Nat.add_zero]
      exact hE n tid2
  · intro n tid2 hq
    rw [projCreates_snoc_createProject] at hq
    by_cases he : tid = tid2
    · subst he
      refine ⟨l ++ [B.newProject nm tid], dictGet_insert_self _ _ _, ?_⟩
      by_cases hn : pyNorm nm = n
      · subst hn
        exact ⟨B.newProject nm tid, List.mem_append_right l (List.mem_cons_self _ _),
          hEcho nm tid⟩
      · rw [if_neg (fun hx => hn hx.2), Nat.add_zero] at hq
        obtain ⟨l2, hl2, r, hrmem, hrmatch⟩ := hF n tid hq
        rw [hlook] at hl2
        have : l = l2 := Option.some.inj hl2
        subst this
        exact ⟨r, List.mem_append_left _ hrmem, hrmatch⟩
    · rw [if_neg (fun hx => he hx.1), Nat.add_zero] at hq
      obtain ⟨l2, hl2, hr⟩ := hF n tid2 hq
      exact ⟨l2, by rw [dictGet_insert_other _ _ _ _ (fun hx => he hx.symm)]; exact hl2, hr⟩

lemma no_match_of_match_record_error {l : List Record} {nm lbl : String} {e : PyErr}
    (h : match_record l nm lbl = .error e) :
    ∀ r ∈ l, recMatchesNeedle r (pyNorm nm) = false := by
  rw [match_record] at h
  cases hf : findFirstMatch (pyNorm nm) l with
  | some r =>
    rw [hf] at h
    cases h
  | none => exact (findFirstMatch_eq_none_iff _ _).mp hf

lemma inv_resolve_team (B : Backend) (teamName : String) (s : ClientState)
    (h : Inv s) : Inv (resolve_team B teamName s).2 :=
  inv_list_teams B s h

lemma inv_resolve_project (B : Backend) (projectName : String) (team : Record)
    (createIfMissing : Bool) (s : ClientState) (hEcho : EchoesName B) (h : Inv s) :
    Inv (resolve_project B projectName team createIfMissing s).2 := by
  rw [resolve_project]
  cases hid : record_id team with
  | error e => exact h
  | ok tid =>
    have h1 : Inv (list_projects B tid s).2 := inv_list_projects B tid s h
    show Inv (match match_record (list_projects B tid s).1 projectName "project" with
      | .ok r => ((.ok r : Except PyErr Record), (list_projects B tid s).2)
      | .error e =>
        if createIfMissing then
          ((.ok (create_project B projectName tid (list_projects B tid s).2).1 :
              Except PyErr Record),
            (create_project B projectName tid (list_projects B tid s).2).2)
        else (.error e, (list_projects B tid s).2)).2
    cases hm : match_record (list_projects B tid s).1 projectName "project" with
    | ok r => exact h1
    | error e =>
      cases createIfMissing with
      | false => exact h1
      | true =>
        exact inv_create_project B projectName tid (list_projects B tid s).2 hEcho h1
          (list_projects B tid s).1 (list_projects_lookup B tid s)
          (no_match_of_match_record_error hm)

lemma inv_resolve_identifiers (B : Backend) (team project : String)
    (createMissing : Bool) (s : ClientState) (hEcho : EchoesName B) (h : Inv s) :
    Inv (resolve_identifiers B team project createMissing s).2 := by
  rw [resolve_identifiers]
  cases ht : (resolve_team B team s).1 with
  | error e => exact inv_resolve_team B team s h
  | ok tr =>
    show Inv (match
        (resolve_project B project tr createMissing (resolve_team B team s).2).1 with
      | .error e => ((.error e : Except PyErr (Record × Record)),
          (resolve_project B project tr createMissing (resolve_team B team s).2).2)
      | .ok pr => (.ok (tr, pr),
          (resolve_project B project tr createMissing (resolve_team B team s).2).2)).2
    cases hp : (resolve_project B project tr createMissing (resolve_team B team s).2).1 with
    | error e =>
      exact inv_resolve_project B project tr createMissing _ hEcho
        (inv_resolve_team B team s h)
    | ok pr =>
      exact inv_resolve_project B project tr createMissing _ hEcho
        (inv_resolve_team B team s h)

lemma inv_runResolves (B : Backend) (hEcho : EchoesName B) :
    ∀ (reqs : List (String × String × Bool)) (s : ClientState),
      Inv s → Inv (runResolves B reqs s) := by
  intro reqs
  induction reqs with
  | nil =>
    intro s h
    exact h
  | cons r rest ih =>
    intro s h
    rcases r with ⟨t, p, c⟩
    exact ih _ (inv_resolve_identifiers B t p c s hEcho h)

/-- C6: within one client session the team list is fetched at most once, the
project list for any team at most once, and a project with a given
(normalised name, team) pair is auto-created at most once — so two specs
sharing the same (team, project) pair with create_missing_projects enabled
trigger at most one creation across the batch — for every backend whose
created project records echo the requested name, every request batch, and
the fresh session state. -/
theorem c6_caching_discipline :
    ∀ (B : Backend), EchoesName B →
      ∀ (reqs : List (String × String × Bool)),
        teamFetches (runResolves B reqs freshState).trace ≤ 1 ∧
        (∀ tid, projFetches tid (runResolves B reqs freshState).trace ≤ 1) ∧
        (∀ n tid, projCreates n tid (runResolves B reqs freshState).trace ≤ 1) := by
  intro B hEcho reqs
  obtain ⟨hA, _, hC, _, hE, _⟩ := inv_runResolves B hEcho reqs freshState inv_freshState
  exact ⟨hA, hC, hE⟩

lemma c6Backend_echoes : EchoesName c6Backend := by
  intro nm tid
  simp [c6Backend, recMatchesNeedle, labelFields]

/-- C6 witness: the caching theorem applied to the concrete echoing backend
and a batch of two requests for the same (team, project) pair with
auto-creation enabled. -/
theorem c6_caching_discipline_witness :
    EchoesName c6Backend ∧
      (teamFetches (runResolves c6Backend
          [("Backend", "Payments", true), ("Backend", "Payments", true)]
          freshState).trace ≤ 1 ∧
        (∀ tid, projFetches tid (runResolves c6Backend
          [("Backend", "Payments", true), ("Backend", "Payments", true)]
          freshState).trace ≤ 1) ∧
        (∀ n tid, projCreates n tid (runResolves c6Backend
          [("Backend", "Payments", true), ("Backend", "Payments", true)]
          freshState).trace ≤ 1)) :=
  ⟨c6Backend_echoes,
    c6_caching_discipline c6Backend c6Backend_echoes
      [("Backend", "Payments", true), ("Backend", "Payments", true)]⟩

end LinearIssueMaker

